import Mathlib

/-!
Verification development for the prompt-repository loader
(`src/services/loaders.ts` and its collaborators).

The TypeScript source is shallowly embedded: pure functions become Lean
functions, the module-level mutable maps (`registeredToolRefs`,
`promptRuntimeMap`, …) become explicit state records threaded through the
reload pipeline, and external effects (file system, YAML parsing, Handlebars
compilation, git sync) appear as oracle inputs describing their outcome.
JavaScript `Map` objects are modelled as insertion-ordered association lists
with `Map.set` / `Map.delete` / `Map.get` semantics.
-/

/-- Runtime classification of a prompt (`src/types/promptRuntime.ts`). -/
inductive PromptRuntimeState where
  | active
  | legacy
  | invalid
  | disabled
  | warning
deriving DecidableEq

/-- Origin of a prompt's metadata (`src/types/promptRuntime.ts`). -/
inductive PromptSource where
  | embedded
  | registry
  | legacy
deriving DecidableEq

/-- Author-declared status of a prompt.  The metadata schema only produces
`draft`, `stable` and `deprecated`; `legacy` is the default used by
`createPromptRuntime` when no metadata is present. -/
inductive PromptStatus where
  | draft
  | stable
  | deprecated
  | legacy
deriving DecidableEq

/-- The slice of a parsed prompt document needed by the loader
(`PromptDefinitionSchema` in `src/services/loaders.ts`). -/
structure PromptDefinition where
  id : String
  title : String
  description : Option String
  template : String
deriving DecidableEq

/-- Successfully validated embedded metadata (`PromptMetadataSchema` in
`src/types/promptMetadata.ts`).  The semver string is represented by its
dot-separated numeric components (the schema's regex guarantees three
numeric components); `dependenciesPartials` is `dependencies.partials`
after the zod default `[]`. -/
structure PromptMetadata where
  version : List Nat
  status : PromptStatus
  tags : List String
  use_cases : List String
  dependenciesPartials : List String
deriving DecidableEq

/-- One entry of `registry.yaml` (`RegistrySchema` in
`src/types/registry.ts`).  `visibility` and `deprecated` carry zod
defaults, so they are always present after parsing. -/
structure RegistryEntry where
  id : String
  group : Option String
  visibility : String
  deprecated : Bool
deriving DecidableEq

/-- A successfully parsed `registry.yaml`. -/
structure Registry where
  prompts : List RegistryEntry
deriving DecidableEq

/-- In-memory record for one prompt id (`src/types/promptRuntime.ts`). -/
structure PromptRuntime where
  id : String
  title : String
  version : List Nat
  status : PromptStatus
  tags : List String
  use_cases : List String
  runtime_state : PromptRuntimeState
  source : PromptSource
  group : String
  visibility : Option String
deriving DecidableEq

/-! JavaScript `Map` model: insertion-ordered association lists.
`mapSet` overwrites in place, `mapDelete` removes the entry, `mapGet`
returns the stored value.  Keys are unique whenever the list was built by
these operations, matching a real `Map`. -/

/-- Model of `Map.prototype.get`. -/
def mapGet {α : Type} : List (String × α) → String → Option α
  | [], _ => none
  | p :: rest, k => if p.1 = k then some p.2 else mapGet rest k

/-- Model of `Map.prototype.set` (updates in place, else appends). -/
def mapSet {α : Type} : List (String × α) → String → α → List (String × α)
  | [], k, v => [(k, v)]
  | p :: rest, k, v => if p.1 = k then (k, v) :: rest else p :: mapSet rest k v

/-- Model of `Map.prototype.delete`. -/
def mapDelete {α : Type} : List (String × α) → String → List (String × α)
  | [], _ => []
  | p :: rest, k => if p.1 = k then mapDelete rest k else p :: mapDelete rest k

/-- Model of `Map.prototype.keys` (as a list, in insertion order). -/
def mapKeys {α : Type} (m : List (String × α)) : List String :=
  m.map (fun p => p.1)

/-- Model of `Set.prototype.add`. -/
def setAdd (s : List String) (k : String) : List String :=
  if k ∈ s then s else s ++ [k]

/-- Model of `Set.prototype.delete`. -/
def setDelete (s : List String) (k : String) : List String :=
  s.filter (fun x => x ≠ k)

theorem mapGet_mapSet {α : Type} (m : List (String × α)) (k k' : String) (v : α) :
    mapGet (mapSet m k v) k' = if k' = k then some v else mapGet m k' := by
  induction m with
  | nil =>
    by_cases h : k' = k
    · subst h; simp [mapSet, mapGet]
    · have h2 : ¬ k = k' := fun hh => h hh.symm
      simp [mapSet, mapGet, h, h2]
  | cons p rest ih =>
    by_cases hpk : p.1 = k
    · by_cases h : k' = k
      · subst h; simp [mapSet, mapGet, hpk]
      · have h2 : ¬ k = k' := fun hh => h hh.symm
        have hp' : ¬ p.1 = k' := fun hh => h2 (hpk.symm.trans hh)
        simp [mapSet, mapGet, hpk, h, h2, hp']
    · by_cases hp' : p.1 = k'
      · have h : ¬ k' = k := fun hh => hpk (hp'.trans hh)
        simp [mapSet, mapGet, hpk, hp', h]
      · simp [mapSet, mapGet, hpk, hp', ih]

theorem mapGet_mapDelete {α : Type} (m : List (String × α)) (k k' : String) :
    mapGet (mapDelete m k) k' = if k' = k then none else mapGet m k' := by
  induction m with
  | nil =>
    by_cases h : k' = k <;> simp [mapDelete, mapGet, h]
  | cons p rest ih =>
    by_cases hpk : p.1 = k
    · by_cases h : k' = k
      · subst h; simp [mapDelete, mapGet, hpk, ih]
      · have hp' : ¬ p.1 = k' := fun hh => h (hh.symm.trans hpk)
        have h2 : ¬ k = k' := fun hh => h hh.symm
        simp [mapDelete, mapGet, hpk, h, hp', h2, ih]
    · by_cases hp' : p.1 = k'
      · have h : ¬ k' = k := fun hh => hpk (hp'.trans hh)
        simp [mapDelete, mapGet, hpk, hp', h]
      · simp [mapDelete, mapGet, hpk, hp', ih]

theorem mem_mapKeys_iff {α : Type} (m : List (String × α)) (k : String) :
    k ∈ mapKeys m ↔ (mapGet m k).isSome := by
  induction m with
  | nil => simp [mapKeys, mapGet]
  | cons p rest ih =>
    by_cases h : p.1 = k
    · simp only [mapGet, if_pos h, Option.isSome_some, iff_true, mapKeys,
        List.map_cons, List.mem_cons]
      exact Or.inl h.symm
    · have h' : ¬ k = p.1 := fun hh => h hh.symm
      simp only [mapGet, if_neg h, mapKeys, List.map_cons, List.mem_cons]
      constructor
      · rintro (hh | hh)
        · exact absurd hh h'
        · exact (ih.mp hh)
      · intro hh
        exact Or.inr (ih.mpr hh)

theorem mem_setAdd (s : List String) (k a : String) :
    a ∈ setAdd s k ↔ a ∈ s ∨ a = k := by
  by_cases h : k ∈ s
  · simp only [setAdd, if_pos h]
    constructor
    · exact Or.inl
    · rintro (ha | rfl)
      · exact ha
      · exact h
  · simp [setAdd, h]

/-- Construction of a `PromptRuntime` from a parsed document, optional
metadata, optional pre-computed classification, and the optional registry
overlay (`createPromptRuntime` in `src/services/loaders.ts`). -/
def createPromptRuntime (promptDef : PromptDefinition) (metadata : Option PromptMetadata)
    (groupName : String) (registry : Option Registry)
    (runtimeState : Option PromptRuntimeState) (source : Option PromptSource) :
    PromptRuntime :=
  let registryEntry : Option RegistryEntry :=
    match registry with
    | some r => r.prompts.find? (fun p => p.id == promptDef.id)
    | none => none
  let vstu : List Nat × PromptStatus × List String × List String :=
    match metadata with
    | some md => (md.version, md.status, md.tags, md.use_cases)
    | none => ([0, 0, 0], PromptStatus.legacy, [], [])
  let base : PromptRuntimeState × PromptSource :=
    match runtimeState, source with
    | some rs, some src => (rs, src)
    | _, _ =>
      match metadata with
      | some _ => (PromptRuntimeState.active, PromptSource.embedded)
      | none => (PromptRuntimeState.legacy, PromptSource.legacy)
  let final : PromptRuntimeState × PromptSource :=
    match registryEntry with
    | some e =>
      (if e.deprecated then PromptRuntimeState.disabled else PromptRuntimeState.active,
        PromptSource.registry)
    | none => base
  { id := promptDef.id
    title := promptDef.title
    version := vstu.1
    status := vstu.2.1
    tags := vstu.2.2.1
    use_cases := vstu.2.2.2
    runtime_state := final.1
    source := final.2
    group :=
      match registryEntry with
      | some e => e.group.getD groupName
      | none => groupName
    visibility := registryEntry.map (fun e => e.visibility) }

/-- C3: for every parsed document whose id matches an entry of a
successfully loaded `registry.yaml`, the final `PromptRuntime` has source
`registry`; if the entry has `deprecated: true` its `runtime_state` is
`disabled` regardless of the metadata-derived base state, and otherwise the
state is coerced to `active` (in particular upgrading `warning`). -/
theorem registry_overlay_final_state (d : PromptDefinition) (md : Option PromptMetadata)
    (g : String) (reg : Registry) (rs : Option PromptRuntimeState) (src : Option PromptSource)
    (e : RegistryEntry)
    (hfind : reg.prompts.find? (fun p => p.id == d.id) = some e) :
    (createPromptRuntime d md g (some reg) rs src).source = PromptSource.registry ∧
    (createPromptRuntime d md g (some reg) rs src).runtime_state =
      (if e.deprecated then PromptRuntimeState.disabled else PromptRuntimeState.active) := by
  unfold createPromptRuntime
  simp [hfind]

/-- Witness for C3: a document with a metadata-derived `warning` state is
upgraded to `active` by a non-deprecated registry entry. -/
theorem registry_overlay_final_state_witness :
    (createPromptRuntime ⟨"foo", "Foo", none, "T"⟩ none "common"
        (some ⟨[⟨"foo", some "g1", "private", false⟩]⟩)
        (some PromptRuntimeState.warning) (some PromptSource.embedded)).source =
      PromptSource.registry ∧
    (createPromptRuntime ⟨"foo", "Foo", none, "T"⟩ none "common"
        (some ⟨[⟨"foo", some "g1", "private", false⟩]⟩)
        (some PromptRuntimeState.warning) (some PromptSource.embedded)).runtime_state =
      PromptRuntimeState.active := by
  have h := registry_overlay_final_state ⟨"foo", "Foo", none, "T"⟩ none "common"
    ⟨[⟨"foo", some "g1", "private", false⟩]⟩
    (some PromptRuntimeState.warning) (some PromptSource.embedded)
    ⟨"foo", some "g1", "private", false⟩ (by decide)
  simpa using h

/-! Group filtering (`shouldLoadPrompt` in `src/services/loaders.ts`). -/

/-- Split of a character list at `/` separators, mirroring
`relativePath.split(path.sep)` on a POSIX path. -/
def splitOnSlash : List Char → List (List Char)
  | [] => [[]]
  | c :: cs =>
    let r := splitOnSlash cs
    if c = '/' then [] :: r
    else
      match r with
      | [] => [[c]]
      | h :: t => (c :: h) :: t

/-- Group of a document: first path segment when the relative path has
more than one segment, else `root` (`shouldLoadPrompt`, lines 348–349). -/
def pathGroupName (relativePath : String) : String :=
  let pathParts := (splitOnSlash relativePath.data).map String.mk
  if pathParts.length > 1 then pathParts.headD "root" else "root"

/-- Decision whether to load a file, given the active group list and
whether the `common` group is force-included (`shouldLoadPrompt`). -/
def shouldLoadPrompt (relativePath : String) (activeGroups : List String)
    (includeCommon : Bool) : Bool × String :=
  let groupName := pathGroupName relativePath
  let isSelected := activeGroups.contains groupName
  if groupName == "root" then (true, groupName)
  else if groupName == "common" then (includeCommon || isSelected, groupName)
  else (isSelected, groupName)

/-- The full-reload path calls `shouldLoadPrompt` with
`includeCommon := hasSystemRepo` (`loadPrompts`, lines 647–651). -/
def loadDecisionFullReload (relativePath : String) (activeGroups : List String)
    (hasSystemRepo : Bool) : Bool :=
  (shouldLoadPrompt relativePath activeGroups hasSystemRepo).1

/-- The single-file-reload path calls `shouldLoadPrompt` with
`includeCommon := false` regardless of any configured system source
(`reloadSinglePrompt`, lines 1599–1603). -/
def loadDecisionSingleReload (relativePath : String) (activeGroups : List String) : Bool :=
  (shouldLoadPrompt relativePath activeGroups false).1

/-- Counterexample for C8: with a system source configured and `common`
not in the active-group set, the full-reload path loads a `common` file
but the single-file-reload path does not — the claimed iff fails on the
single-file path. -/
theorem group_filter_single_reload_counterexample :
    loadDecisionFullReload "common/foo.yaml" [] true = true ∧
    loadDecisionSingleReload "common/foo.yaml" [] = false := by
  constructor <;> rfl

/-- C8 (amended): `root`-group files are loaded unconditionally on both
paths; on the full-reload path a `common` file is loaded iff a system
source is configured or `common` is an active group, while the
single-file-reload path ignores the system source and loads `common` iff
`common` is an active group; any other group is loaded iff it is active,
on both paths. -/
theorem group_filter_amended (rel : String) (groups : List String) (sys : Bool) :
    (pathGroupName rel = "root" →
      loadDecisionFullReload rel groups sys = true ∧
      loadDecisionSingleReload rel groups = true) ∧
    (pathGroupName rel = "common" →
      loadDecisionFullReload rel groups sys = (sys || groups.contains "common") ∧
      loadDecisionSingleReload rel groups = groups.contains "common") ∧
    (pathGroupName rel ≠ "root" → pathGroupName rel ≠ "common" →
      loadDecisionFullReload rel groups sys = groups.contains (pathGroupName rel) ∧
      loadDecisionSingleReload rel groups = groups.contains (pathGroupName rel)) := by
  refine ⟨?_, ?_, ?_⟩
  · intro h
    constructor <;> simp [loadDecisionFullReload, loadDecisionSingleReload, shouldLoadPrompt, h]
  · intro h
    constructor <;> simp [loadDecisionFullReload, loadDecisionSingleReload, shouldLoadPrompt, h]
  · intro h1 h2
    constructor <;>
      simp [loadDecisionFullReload, loadDecisionSingleReload, shouldLoadPrompt, h1, h2]

/-- Witness for C8 (amended): a `laravel`-group file with `laravel`
active is loaded on both paths. -/
theorem group_filter_amended_witness :
    loadDecisionFullReload "laravel/x.yaml" ["laravel"] false = true ∧
    loadDecisionSingleReload "laravel/x.yaml" ["laravel"] = true := by
  have h := (group_filter_amended "laravel/x.yaml" ["laravel"] false).2.2
    (by decide) (by decide)
  simpa using h

/-! Partial-reference extraction (`extractPartialsFromTemplate` in
`src/services/loaders.ts`).  The JS regex is
`/\x7b\x7b>\s*([a-zA-Z0-9/_-]+)\s*\x7d\x7d/g`; because the character class
contains neither whitespace nor the closing brace, the backtracking regex
match at a given position succeeds exactly when maximal-munch scanning
does, so a deterministic scanner is a faithful model. -/

/-- Opening brace character. -/
def lbrace : Char := Char.ofNat 123

/-- Closing brace character. -/
def rbrace : Char := Char.ofNat 125

/-- The character class `[a-zA-Z0-9/_-]` of the partial-name capture. -/
def isPartialNameChar (c : Char) : Bool :=
  (decide ('a' ≤ c) && decide (c ≤ 'z')) ||
  (decide ('A' ≤ c) && decide (c ≤ 'Z')) ||
  (decide ('0' ≤ c) && decide (c ≤ '9')) ||
  c == '/' || c == '_' || c == '-'

/-- The regex class `\s` restricted to ASCII whitespace. -/
def isJsWhitespace (c : Char) : Bool :=
  c == ' ' || c == '\t' || c == '\n' || c == '\r' ||
  c == Char.ofNat 11 || c == Char.ofNat 12

/-- Attempt to match one partial reference at the head of the character
list; on success returns the captured name and the remaining input. -/
def tryMatchPartialRef : List Char → Option (String × List Char)
  | c1 :: c2 :: c3 :: rest =>
    if c1 == lbrace && c2 == lbrace && c3 == '>' then
      let rest1 := rest.dropWhile isJsWhitespace
      let name := rest1.takeWhile isPartialNameChar
      let rest2 := rest1.dropWhile isPartialNameChar
      let rest3 := rest2.dropWhile isJsWhitespace
      match name, rest3 with
      | [], _ => none
      | _ :: _, c4 :: c5 :: rest4 =>
        if c4 == rbrace && c5 == rbrace then some (String.mk name, rest4) else none
      | _ :: _, _ => none
    else none
  | _ => none

/-- Scan the whole template for partial references (the `regex.exec`
loop); `fuel` is instantiated with the input length. -/
def scanPartialRefs : Nat → List Char → List String
  | 0, _ => []
  | _, [] => []
  | fuel + 1, c :: cs =>
    match tryMatchPartialRef (c :: cs) with
    | some (name, rest) => name :: scanPartialRefs fuel rest
    | none => scanPartialRefs fuel cs

/-- Deduplication keeping first occurrences (the `Set` accumulation and
`Array.from` in `extractPartialsFromTemplate`). -/
def dedupKeepFirst (l : List String) : List String :=
  l.foldl (fun acc x => if x ∈ acc then acc else acc ++ [x]) []

/-- Extraction of the referenced partial names from a template
(`extractPartialsFromTemplate`). -/
def extractPartialsFromTemplate (template : String) : List String :=
  dedupKeepFirst (scanPartialRefs template.data.length template.data)

/-- Result of the partial-dependency consistency check. -/
structure PartialValidation where
  hasIssues : Bool
  undeclaredPartials : List String
  unusedPartials : List String
deriving DecidableEq

/-- Consistency check between the partials used by a template and the
declared `dependencies.partials` (`validatePartialDependencies`). -/
def validatePartialDependencies (template : String) (declaredPartials : List String) :
    PartialValidation :=
  let usedPartials := extractPartialsFromTemplate template
  let undeclared := usedPartials.filter (fun p => !(declaredPartials.contains p))
  let unused := declaredPartials.filter (fun p => !(usedPartials.contains p))
  { hasIssues := !undeclared.isEmpty || !unused.isEmpty
    undeclaredPartials := undeclared
    unusedPartials := unused }

/-- The demotion step of the loader: an `active` prompt with undeclared
used partials becomes `warning` (`loadPrompts`, lines 716–736). -/
def applyPartialCheck (runtimeState : PromptRuntimeState) (template : String)
    (declaredPartials : List String) : PromptRuntimeState :=
  let validationResult := validatePartialDependencies template declaredPartials
  if validationResult.hasIssues then
    if runtimeState = PromptRuntimeState.active ∧
        validationResult.undeclaredPartials ≠ [] then
      PromptRuntimeState.warning
    else runtimeState
  else runtimeState

theorem tryMatchPartialRef_name_allowed (l : List Char) (s : String) (r : List Char)
    (h : tryMatchPartialRef l = some (s, r)) : ∀ c ∈ s.data, isPartialNameChar c := by
  match l with
  | [] => simp [tryMatchPartialRef] at h
  | [c1] => simp [tryMatchPartialRef] at h
  | [c1, c2] => simp [tryMatchPartialRef] at h
  | c1 :: c2 :: c3 :: rest =>
    rw [tryMatchPartialRef] at h
    split at h
    · simp only [] at h
      split at h
      · simp at h
      · split at h
        · injection h with h1
          cases h1
          intro c hc
          exact List.mem_takeWhile_imp hc
        · simp at h
      · simp at h
    · simp at h

theorem scanPartialRefs_names_allowed (fuel : Nat) :
    ∀ (l : List Char) (n : String), n ∈ scanPartialRefs fuel l →
      ∀ c ∈ n.data, isPartialNameChar c := by
  induction fuel with
  | zero =>
    intro l n h
    simp [scanPartialRefs] at h
  | succ f ih =>
    intro l n h
    match l with
    | [] => simp [scanPartialRefs] at h
    | c :: cs =>
      rw [scanPartialRefs] at h
      rcases htm : tryMatchPartialRef (c :: cs) with _ | ⟨s, r⟩
      · rw [htm] at h
        exact ih cs n h
      · rw [htm] at h
        rcases List.mem_cons.mp h with rfl | h'
        · exact tryMatchPartialRef_name_allowed _ _ _ htm
        · exact ih r n h'

theorem mem_dedupKeepFirst (l : List String) (x : String)
    (h : x ∈ dedupKeepFirst l) : x ∈ l := by
  have key : ∀ (l acc : List String), x ∈ l.foldl
      (fun acc y => if y ∈ acc then acc else acc ++ [y]) acc → x ∈ acc ∨ x ∈ l := by
    intro l
    induction l with
    | nil => intro acc h; exact Or.inl h
    | cons y t iht =>
      intro acc h
      rcases iht _ h with hacc | ht
      · simp only [] at hacc
        by_cases hy : y ∈ acc
        · rw [if_pos hy] at hacc
          exact Or.inl hacc
        · rw [if_neg hy] at hacc
          rcases List.mem_append.mp hacc with h1 | h2
          · exact Or.inl h1
          · exact Or.inr (List.mem_cons.mpr (Or.inl (List.mem_singleton.mp h2)))
      · exact Or.inr (List.mem_cons.mpr (Or.inr ht))
  rcases key l [] h with hacc | hl
  · exact absurd hacc (List.not_mem_nil x)
  · exact hl

theorem extractPartials_names_allowed (template : String) (n : String)
    (h : n ∈ extractPartialsFromTemplate template) :
    ∀ c ∈ n.data, isPartialNameChar c :=
  scanPartialRefs_names_allowed template.data.length template.data n
    (mem_dedupKeepFirst _ _ h)

/-- C10: the partial-dependency check only recognises references whose
names consist of characters in `[a-zA-Z0-9/_-]`: a name containing any
other character (such as a dot) is never extracted, never reported as
undeclared, and therefore any demotion of an `active` prompt to `warning`
is caused by some other, well-formed reference. -/
theorem partial_extraction_charset (template : String) (declared : List String) (n : String)
    (hbad : ∃ c ∈ n.data, ¬ isPartialNameChar c) :
    n ∉ extractPartialsFromTemplate template ∧
    n ∉ (validatePartialDependencies template declared).undeclaredPartials ∧
    (applyPartialCheck PromptRuntimeState.active template declared = PromptRuntimeState.warning →
      ∃ m, m ∈ (validatePartialDependencies template declared).undeclaredPartials ∧
        m ≠ n ∧ ∀ c ∈ m.data, isPartialNameChar c) := by
  obtain ⟨c, hc, hcbad⟩ := hbad
  have hnot : n ∉ extractPartialsFromTemplate template := fun hmem =>
    hcbad (extractPartials_names_allowed template n hmem c hc)
  have hundec : ∀ m, m ∈ (validatePartialDependencies template declared).undeclaredPartials →
      m ∈ extractPartialsFromTemplate template := by
    intro m hm
    simp only [validatePartialDependencies] at hm
    exact (List.mem_filter.mp hm).1
  refine ⟨hnot, fun hmem => hnot (hundec n hmem), ?_⟩
  intro hdem
  have hne : (validatePartialDependencies template declared).undeclaredPartials ≠ [] := by
    intro hemp
    simp only [applyPartialCheck] at hdem
    by_cases hiss : (validatePartialDependencies template declared).hasIssues
    · rw [if_pos hiss] at hdem
      rw [if_neg (by simp [hemp])] at hdem
      exact absurd hdem (by simp)
    · rw [if_neg hiss] at hdem
      exact absurd hdem (by simp)
  obtain ⟨m, hm⟩ := List.exists_mem_of_ne_nil _ hne
  have hmused := hundec m hm
  have hmallowed := extractPartials_names_allowed template m hmused
  refine ⟨m, hm, ?_, hmallowed⟩
  intro hmn
  exact hcbad (hmallowed c (hmn ▸ hc))

/-- Witness for C10: the template text `(\x7b\x7b> foo.bar \x7d\x7d)` contains a
dotted partial reference; it is not extracted, not reported undeclared,
and (vacuously) any demotion would have a well-formed cause. -/
theorem partial_extraction_charset_witness :
    "foo.bar" ∉ extractPartialsFromTemplate "\x7b\x7b> foo.bar \x7d\x7d" ∧
    "foo.bar" ∉ (validatePartialDependencies "\x7b\x7b> foo.bar \x7d\x7d" []).undeclaredPartials ∧
    (applyPartialCheck PromptRuntimeState.active "\x7b\x7b> foo.bar \x7d\x7d" [] =
        PromptRuntimeState.warning →
      ∃ m, m ∈ (validatePartialDependencies "\x7b\x7b> foo.bar \x7d\x7d" []).undeclaredPartials ∧
        m ≠ "foo.bar" ∧ ∀ c ∈ m.data, isPartialNameChar c) :=
  partial_extraction_charset "\x7b\x7b> foo.bar \x7d\x7d" [] "foo.bar" (by decide)

/-- Sanity check of the scanner: a well-formed reference is extracted. -/
theorem extractPartials_positive_example :
    extractPartialsFromTemplate "\x7b\x7b> role-expert \x7d\x7d" = ["role-expert"] := by
  rfl

/-- Sanity check of the scanner: a dotted reference yields no extraction,
and the prompt stays `active`. -/
theorem extractPartials_dotted_example :
    extractPartialsFromTemplate "\x7b\x7b> foo.bar \x7d\x7d" = [] ∧
    applyPartialCheck PromptRuntimeState.active "\x7b\x7b> foo.bar \x7d\x7d" [] =
      PromptRuntimeState.active := by
  exact ⟨rfl, rfl⟩

/-! Argument schema construction (`buildZodSchema` in
`src/services/loaders.ts`).  MCP argument values are modelled by
`JsValue`; an absent argument is `none`.  `z.coerce.number()` applies JS
`Number(input)` and rejects `NaN`; `z.coerce.boolean()` applies JS
`Boolean(input)`, which on a string tests non-emptiness. -/

/-- A JSON-like argument value as delivered by an MCP client. -/
inductive JsValue where
  | str (s : String)
  | num (n : Int)
  | bool (b : Bool)
deriving DecidableEq

/-- Value of a non-empty run of decimal digits; `none` on any other
character list. -/
def digitsVal (l : List Char) : Option Nat :=
  if l ≠ [] ∧ l.all Char.isDigit then
    some (l.foldl (fun acc c => acc * 10 + (c.toNat - 48)) 0)
  else none

/-- JS `Number(string)` restricted to optionally signed decimal-integer
literals: the empty string yields `0`, a digit string its value, and any
other string `none` (standing for `NaN`, which `z.number()` rejects). -/
def jsStringToNumber (s : String) : Option Int :=
  match s.data with
  | [] => some 0
  | '-' :: rest => (digitsVal rest).map (fun n => -(n : Int))
  | '+' :: rest => (digitsVal rest).map (fun n => (n : Int))
  | l => (digitsVal l).map (fun n => (n : Int))

/-- Parse step of `z.coerce.number()`. -/
def coerceNumberParse : JsValue → Option Int
  | JsValue.num n => some n
  | JsValue.str s => jsStringToNumber s
  | JsValue.bool b => some (if b then 1 else 0)

/-- Parse step of `z.coerce.boolean()`: JS truthiness. -/
def coerceBooleanParse : JsValue → Bool
  | JsValue.bool b => b
  | JsValue.num n => !(n == 0)
  | JsValue.str s => !(s == "")

/-- Declared type of a prompt argument. -/
inductive ArgType where
  | string
  | number
  | boolean
deriving DecidableEq

/-- Declaration of one prompt argument (the `args` record entries of
`PromptDefinitionSchema`). -/
structure ArgConfig where
  type : ArgType
  description : Option String
  default : Option JsValue
  required : Option Bool
deriving DecidableEq

/-- Lowercasing of an ASCII character (`String.prototype.toLowerCase`
restricted to ASCII). -/
def lowerChar (c : Char) : Char :=
  if 'A' ≤ c ∧ c ≤ 'Z' then Char.ofNat (c.toNat + 32) else c

/-- Decidable check that the first character list starts the second. -/
def charsHavePrefix : List Char → List Char → Bool
  | [], _ => true
  | _ :: _, [] => false
  | a :: as, b :: bs => a == b && charsHavePrefix as bs

/-- Decidable check that the first character list occurs contiguously in
the second (`String.prototype.includes`). -/
def charsHaveInfix (needle : List Char) : List Char → Bool
  | [] => charsHavePrefix needle []
  | b :: bs => charsHavePrefix needle (b :: bs) || charsHaveInfix needle bs

/-- Case-insensitive token membership used by the requiredness fallback
(`description?.toLowerCase().includes(tok)`). -/
def descContainsToken (d : Option String) (tok : String) : Bool :=
  match d with
  | some s => charsHaveInfix tok.data (s.data.map lowerChar)
  | none => false

/-- Whether the built schema marks the argument optional
(`buildZodSchema`, lines 281–315). -/
def isOptionalArg (cfg : ArgConfig) : Bool :=
  match cfg.required with
  | some true => false
  | some false => true
  | none =>
    let hasDefault := cfg.default.isSome
    let isOptionalInDesc := descContainsToken cfg.description "optional"
    let isRequiredInDesc := descContainsToken cfg.description "(required)"
    !isRequiredInDesc && (hasDefault || isOptionalInDesc)

/-- The base schema chosen from the declared type (`buildZodSchema`,
lines 273–279). -/
def argBaseParse (t : ArgType) (v : JsValue) : Option JsValue :=
  match t with
  | ArgType.number => (coerceNumberParse v).map JsValue.num
  | ArgType.boolean => some (JsValue.bool (coerceBooleanParse v))
  | ArgType.string =>
    match v with
    | JsValue.str s => some (JsValue.str s)
    | _ => none

/-- Parse of one argument through the schema built by `buildZodSchema`.
The outer `Option` is zod success/failure; the inner one distinguishes a
parsed value from a permitted absence. -/
def argSchemaParse (cfg : ArgConfig) (input : Option JsValue) : Option (Option JsValue) :=
  match input with
  | some v => (argBaseParse cfg.type v).map some
  | none =>
    if isOptionalArg cfg then
      some (match cfg.default with
        | some d => some d
        | none => none)
    else none

/-- C9 (behaviour of the code at the claim's inputs): the number schema
accepts the numeric string "42" and yields 42, as claimed; but the
boolean schema — `z.coerce.boolean()`, i.e. JS `Boolean` — maps the
string "false" to `true`, not `false`: non-empty strings are all truthy.
This contradicts the claim (and the comment at lines 270–272 of
`src/services/loaders.ts` announcing conversion of `'true'`/`'false'`). -/
theorem zod_coercion_eval :
    argSchemaParse ⟨ArgType.number, none, none, some true⟩ (some (JsValue.str "42")) =
      some (some (JsValue.num 42)) ∧
    argSchemaParse ⟨ArgType.number, none, none, some true⟩ (some (JsValue.str "7.5x")) =
      none ∧
    argSchemaParse ⟨ArgType.boolean, none, none, some true⟩ (some (JsValue.str "true")) =
      some (some (JsValue.bool true)) ∧
    argSchemaParse ⟨ArgType.boolean, none, none, some true⟩ (some (JsValue.str "false")) =
      some (some (JsValue.bool true)) := by
  refine ⟨rfl, rfl, rfl, rfl⟩

/-! Priority ranking (`compareVersions` and `sortPromptsByPriority` in
`src/services/loaders.ts`).  A version string is represented by its list
of numeric components; `v1Parts[i] ?? 0` makes a missing component read
as `0`.  `compareVersions` returns `1` when the first version is older
(the newer version must sort first) and `-1` when it is newer.  The loop
over `0 ≤ i < maxLength` is rendered as structural recursion; the two
helpers below are the tail of the loop once one side is exhausted (its
remaining components all read as `0`). -/

/-- Tail of the `compareVersions` loop when the first version is
exhausted: each remaining component `y` is compared against `0`. -/
def cmpZeros : List Nat → Int
  | [] => 0
  | y :: ys => if 0 < y then 1 else if y < 0 then -1 else cmpZeros ys

/-- Tail of the `compareVersions` loop when the second version is
exhausted: each remaining component `x` is compared against `0`. -/
def cmpZerosRev : List Nat → Int
  | [] => 0
  | x :: xs => if x < 0 then 1 else if 0 < x then -1 else cmpZerosRev xs

/-- Semver comparison of `compareVersions` (lines 59–71). -/
def compareVersions : List Nat → List Nat → Int
  | [], b => cmpZeros b
  | a, [] => cmpZerosRev a
  | x :: xs, y :: ys =>
    if x < y then 1 else if y < x then -1 else compareVersions xs ys

theorem compareVersions_nil_left (b : List Nat) :
    compareVersions [] b = cmpZeros b := by
  cases b <;> rfl

theorem compareVersions_nil_right (a : List Nat) :
    compareVersions a [] = cmpZerosRev a := by
  cases a <;> rfl

theorem cmpZeros_neg : ∀ (b : List Nat), cmpZeros b = -(cmpZerosRev b) := by
  intro b
  induction b with
  | nil => simp [cmpZeros, cmpZerosRev]
  | cons y ys ih =>
    rw [cmpZeros, cmpZerosRev]
    by_cases h1 : 0 < y
    · have h2 : ¬ y < 0 := by omega
      simp [h1, h2]
    · have hy : y = 0 := by omega
      subst hy
      simpa using ih

theorem compareVersions_antisymm : ∀ (a b : List Nat),
    compareVersions a b = -(compareVersions b a) := by
  intro a
  induction a with
  | nil =>
    intro b
    rw [compareVersions_nil_left, compareVersions_nil_right]
    exact cmpZeros_neg b
  | cons x xs ihx =>
    intro b
    cases b with
    | nil =>
      rw [compareVersions_nil_left, compareVersions_nil_right]
      have h := cmpZeros_neg (x :: xs)
      omega
    | cons y ys =>
      rw [compareVersions, compareVersions]
      rcases Nat.lt_trichotomy x y with h | h | h
      · have h2 : ¬ y < x := by omega
        simp [h, h2]
      · subst h
        have h2 : ¬ x < x := by omega
        simp only [h2, if_false]
        exact ihx ys
      · have h2 : ¬ x < y := by omega
        simp [h, h2]

theorem cmpZeros_append_zero (b : List Nat) :
    cmpZeros (b ++ [0]) = cmpZeros b := by
  induction b with
  | nil => rfl
  | cons y ys ih =>
    rw [List.cons_append, cmpZeros, cmpZeros]
    by_cases h1 : 0 < y
    · simp [h1]
    · have hy : y = 0 := by omega
      subst hy
      simpa using ih

theorem compareVersions_append_zero_right : ∀ (a b : List Nat),
    compareVersions a (b ++ [0]) = compareVersions a b := by
  intro a
  induction a with
  | nil =>
    intro b
    rw [compareVersions_nil_left, compareVersions_nil_left]
    exact cmpZeros_append_zero b
  | cons x xs ihx =>
    intro b
    cases b with
    | nil =>
      rw [List.nil_append]
      have hL : compareVersions (x :: xs) [0] =
          if x < 0 then 1 else if 0 < x then -1 else compareVersions xs [] := rfl
      have hR : compareVersions (x :: xs) [] =
          if x < 0 then 1 else if 0 < x then -1 else cmpZerosRev xs := rfl
      rw [hL, hR, compareVersions_nil_right]
    | cons y ys =>
      rw [List.cons_append, compareVersions, compareVersions]
      rcases Nat.lt_trichotomy x y with h | h | h
      · simp [h]
      · subst h
        have h2 : ¬ x < x := by omega
        simp only [h2, if_false]
        exact ihx ys
      · have h2 : ¬ x < y := by omega
        simp [h, h2]

theorem compareVersions_append_zero_left (a b : List Nat) :
    compareVersions (a ++ [0]) b = compareVersions a b := by
  rw [compareVersions_antisymm (a ++ [0]) b, compareVersions_append_zero_right,
    ← compareVersions_antisymm]

theorem compareVersions_pad_right (a b : List Nat) (k : Nat) :
    compareVersions a (b ++ List.replicate k 0) = compareVersions a b := by
  induction k generalizing b with
  | zero => simp
  | succ k ih =>
    rw [List.replicate_succ]
    have hsh : b ++ (0 :: List.replicate k 0) = (b ++ [0]) ++ List.replicate k 0 := by
      simp
    rw [hsh, ih, compareVersions_append_zero_right]

theorem compareVersions_pad_left (a b : List Nat) (k : Nat) :
    compareVersions (a ++ List.replicate k 0) b = compareVersions a b := by
  rw [compareVersions_antisymm _ b, compareVersions_pad_right,
    ← compareVersions_antisymm]

theorem compareVersions_eq_of_zero_eqlen : ∀ (a b : List Nat),
    a.length = b.length → compareVersions a b = 0 → a = b := by
  intro a
  induction a with
  | nil =>
    intro b hlen _
    cases b with
    | nil => rfl
    | cons y ys => simp at hlen
  | cons x xs ih =>
    intro b hlen h
    cases b with
    | nil => simp at hlen
    | cons y ys =>
      rw [compareVersions] at h
      by_cases hxy : x < y
      · rw [if_pos hxy] at h
        exact absurd h (by decide)
      · rw [if_neg hxy] at h
        by_cases hyx : y < x
        · rw [if_pos hyx] at h
          exact absurd h (by decide)
        · rw [if_neg hyx] at h
          have hxy' : x = y := by omega
          have hlen' : xs.length = ys.length := by simpa using hlen
          rw [hxy', ih ys hlen' h]

theorem compareVersions_le_trans_eqlen : ∀ (a b c : List Nat),
    a.length = b.length → b.length = c.length →
    compareVersions a b ≤ 0 → compareVersions b c ≤ 0 →
    compareVersions a c ≤ 0 := by
  intro a
  induction a with
  | nil =>
    intro b c hab hbc h1 h2
    cases b with
    | cons y ys => simp at hab
    | nil =>
      cases c with
      | cons z zs => simp at hbc
      | nil => exact h1
  | cons x xs ih =>
    intro b c hab hbc h1 h2
    cases b with
    | nil => simp at hab
    | cons y ys =>
      cases c with
      | nil => simp at hbc
      | cons z zs =>
        have hab' : xs.length = ys.length := by simpa using hab
        have hbc' : ys.length = zs.length := by simpa using hbc
        rw [compareVersions] at h1 h2 ⊢
        by_cases hxy : x < y
        · rw [if_pos hxy] at h1
          exact absurd h1 (by decide)
        · rw [if_neg hxy] at h1
          by_cases hyz : y < z
          · rw [if_pos hyz] at h2
            exact absurd h2 (by decide)
          · rw [if_neg hyz] at h2
            by_cases hyx : y < x
            · have hzx : z < x := by omega
              rw [if_neg (by omega : ¬ x < z), if_pos hzx]
              decide
            · have hxy' : x = y := by omega
              by_cases hzy : z < y
              · have hzx : z < x := by omega
                rw [if_neg (by omega : ¬ x < z), if_pos hzx]
                decide
              · rw [if_neg (by omega : ¬ x < z), if_neg (by omega : ¬ z < x)]
                rw [if_neg hyx] at h1
                rw [if_neg (by omega : ¬ z < y)] at h2
                exact ih ys zs hab' hbc' h1 h2

theorem compareVersions_zero_congr (a b c : List Nat)
    (h : compareVersions a b = 0) :
    compareVersions b c = compareVersions a c := by
  have hpa : compareVersions (a ++ List.replicate (max a.length b.length - a.length) 0)
      (b ++ List.replicate (max a.length b.length - b.length) 0) = 0 := by
    rw [compareVersions_pad_left, compareVersions_pad_right]
    exact h
  have hma := Nat.le_max_left a.length b.length
  have hmb := Nat.le_max_right a.length b.length
  have hlen : (a ++ List.replicate (max a.length b.length - a.length) 0).length =
      (b ++ List.replicate (max a.length b.length - b.length) 0).length := by
    simp only [List.length_append, List.length_replicate]
    omega
  have heq := compareVersions_eq_of_zero_eqlen _ _ hlen hpa
  calc compareVersions b c
      = compareVersions (b ++ List.replicate (max a.length b.length - b.length) 0) c := by
        rw [compareVersions_pad_left]
    _ = compareVersions (a ++ List.replicate (max a.length b.length - a.length) 0) c := by
        rw [heq]
    _ = compareVersions a c := by rw [compareVersions_pad_left]

theorem compareVersions_le_trans (a b c : List Nat)
    (h1 : compareVersions a b ≤ 0) (h2 : compareVersions b c ≤ 0) :
    compareVersions a c ≤ 0 := by
  have hma := Nat.le_max_left a.length b.length
  have hmb := Nat.le_max_right a.length b.length
  have hmm := Nat.le_max_left (max a.length b.length) c.length
  have hmc := Nat.le_max_right (max a.length b.length) c.length
  have hla : (a ++ List.replicate (max (max a.length b.length) c.length - a.length) 0).length =
      max (max a.length b.length) c.length := by
    simp only [List.length_append, List.length_replicate]
    omega
  have hlb : (b ++ List.replicate (max (max a.length b.length) c.length - b.length) 0).length =
      max (max a.length b.length) c.length := by
    simp only [List.length_append, List.length_replicate]
    omega
  have hlc : (c ++ List.replicate (max (max a.length b.length) c.length - c.length) 0).length =
      max (max a.length b.length) c.length := by
    simp only [List.length_append, List.length_replicate]
    omega
  have h1' : compareVersions
      (a ++ List.replicate (max (max a.length b.length) c.length - a.length) 0)
      (b ++ List.replicate (max (max a.length b.length) c.length - b.length) 0) ≤ 0 := by
    rw [compareVersions_pad_left, compareVersions_pad_right]
    exact h1
  have h2' : compareVersions
      (b ++ List.replicate (max (max a.length b.length) c.length - b.length) 0)
      (c ++ List.replicate (max (max a.length b.length) c.length - c.length) 0) ≤ 0 := by
    rw [compareVersions_pad_left, compareVersions_pad_right]
    exact h2
  have h3 := compareVersions_le_trans_eqlen _ _ _
    (hla.trans hlb.symm) (hlb.trans hlc.symm) h1' h2'
  rw [compareVersions_pad_left, compareVersions_pad_right] at h3
  exact h3

/-- The `statusPriority` record of `sortPromptsByPriority` (lines 86–91). -/
def statusPriority : PromptStatus → Nat
  | PromptStatus.stable => 4
  | PromptStatus.draft => 3
  | PromptStatus.deprecated => 2
  | PromptStatus.legacy => 1

/-- The `sourcePriority` record of `sortPromptsByPriority` (lines 93–97). -/
def sourcePriority : PromptSource → Nat
  | PromptSource.registry => 3
  | PromptSource.embedded => 2
  | PromptSource.legacy => 1

/-- A pending registration: the sort key data of
`PendingPromptRegistration` (`promptDef.id` and the runtime). -/
structure PendingPromptRegistration where
  id : String
  runtime : PromptRuntime
deriving DecidableEq

/-- Model of `String.prototype.localeCompare` on ASCII ids: code-point
lexicographic comparison. -/
def strCompare (a b : String) : Int :=
  if a < b then -1 else if b < a then 1 else 0

/-- The comparator of `sortPromptsByPriority` (lines 99–121): status
difference, then version, then source difference, then id. -/
def promptCompare (a b : PendingPromptRegistration) : Int :=
  let statusDiff : Int :=
    (statusPriority b.runtime.status : Int) - (statusPriority a.runtime.status : Int)
  if statusDiff ≠ 0 then statusDiff
  else
    let versionDiff := compareVersions a.runtime.version b.runtime.version
    if versionDiff ≠ 0 then versionDiff
    else
      let sourceDiff : Int :=
        (sourcePriority b.runtime.source : Int) - (sourcePriority a.runtime.source : Int)
      if sourceDiff ≠ 0 then sourceDiff
      else strCompare a.id b.id

/-- Non-strict order induced by the comparator. -/
def promptLe (a b : PendingPromptRegistration) : Bool :=
  decide (promptCompare a b ≤ 0)

/-- Stable sort by the comparator (`prompts.sort(...)`; `Array.prototype.sort`
is stable, as is insertion sort). -/
def sortPromptsByPriority (l : List PendingPromptRegistration) :
    List PendingPromptRegistration :=
  List.insertionSort (fun a b => promptLe a b = true) l

theorem strCompare_antisymm (a b : String) : strCompare a b = -(strCompare b a) := by
  rcases lt_trichotomy a b with h | h | h
  · simp [strCompare, h, lt_asymm h]
  · subst h
    simp [strCompare, lt_irrefl]
  · simp [strCompare, h, lt_asymm h]

theorem strCompare_nonpos_iff (a b : String) : strCompare a b ≤ 0 ↔ a ≤ b := by
  rcases lt_trichotomy a b with h | h | h
  · simp [strCompare, h, lt_asymm h, le_of_lt h]
  · subst h
    simp [strCompare, lt_irrefl]
  · simp [strCompare, h, lt_asymm h, not_le.mpr h]

theorem strCompare_eq_zero_iff (a b : String) : strCompare a b = 0 ↔ a = b := by
  rcases lt_trichotomy a b with h | h | h
  · simp [strCompare, h, lt_asymm h, ne_of_lt h]
  · subst h
    simp [strCompare, lt_irrefl]
  · simp [strCompare, h, lt_asymm h, (ne_of_gt h)]

theorem promptCompare_status_ne (a b : PendingPromptRegistration)
    (h : (statusPriority b.runtime.status : Int) -
      (statusPriority a.runtime.status : Int) ≠ 0) :
    promptCompare a b =
      (statusPriority b.runtime.status : Int) - (statusPriority a.runtime.status : Int) := by
  unfold promptCompare
  simp only []
  rw [if_pos h]

theorem promptCompare_version_ne (a b : PendingPromptRegistration)
    (h0 : (statusPriority b.runtime.status : Int) -
      (statusPriority a.runtime.status : Int) = 0)
    (h : compareVersions a.runtime.version b.runtime.version ≠ 0) :
    promptCompare a b = compareVersions a.runtime.version b.runtime.version := by
  unfold promptCompare
  simp only []
  rw [if_neg (fun hh => hh h0), if_pos h]

theorem promptCompare_source_ne (a b : PendingPromptRegistration)
    (h0 : (statusPriority b.runtime.status : Int) -
      (statusPriority a.runtime.status : Int) = 0)
    (h1 : compareVersions a.runtime.version b.runtime.version = 0)
    (h : (sourcePriority b.runtime.source : Int) -
      (sourcePriority a.runtime.source : Int) ≠ 0) :
    promptCompare a b =
      (sourcePriority b.runtime.source : Int) - (sourcePriority a.runtime.source : Int) := by
  unfold promptCompare
  simp only []
  rw [if_neg (fun hh => hh h0), if_neg (fun hh => hh h1), if_pos h]

theorem promptCompare_id_level (a b : PendingPromptRegistration)
    (h0 : (statusPriority b.runtime.status : Int) -
      (statusPriority a.runtime.status : Int) = 0)
    (h1 : compareVersions a.runtime.version b.runtime.version = 0)
    (h2 : (sourcePriority b.runtime.source : Int) -
      (sourcePriority a.runtime.source : Int) = 0) :
    promptCompare a b = strCompare a.id b.id := by
  unfold promptCompare
  simp only []
  rw [if_neg (fun hh => hh h0), if_neg (fun hh => hh h1), if_neg (fun hh => hh h2)]

theorem promptCompare_antisymm (a b : PendingPromptRegistration) :
    promptCompare a b = -(promptCompare b a) := by
  by_cases h1 : (statusPriority b.runtime.status : Int) -
      (statusPriority a.runtime.status : Int) = 0
  · by_cases h2 : compareVersions a.runtime.version b.runtime.version = 0
    · have h2' : compareVersions b.runtime.version a.runtime.version = 0 := by
        have hs := compareVersions_antisymm a.runtime.version b.runtime.version
        omega
      by_cases h3 : (sourcePriority b.runtime.source : Int) -
          (sourcePriority a.runtime.source : Int) = 0
      · rw [promptCompare_id_level a b h1 h2 h3,
          promptCompare_id_level b a (by omega) h2' (by omega)]
        exact strCompare_antisymm a.id b.id
      · rw [promptCompare_source_ne a b h1 h2 h3,
          promptCompare_source_ne b a (by omega) h2' (by omega)]
        omega
    · have h2' : compareVersions b.runtime.version a.runtime.version ≠ 0 := by
        have hs := compareVersions_antisymm a.runtime.version b.runtime.version
        omega
      rw [promptCompare_version_ne a b h1 h2, promptCompare_version_ne b a (by omega) h2']
      exact compareVersions_antisymm _ _
  · rw [promptCompare_status_ne a b h1, promptCompare_status_ne b a (by omega)]
    omega

theorem promptCompare_eq_zero_parts (a b : PendingPromptRegistration)
    (h : promptCompare a b = 0) :
    statusPriority a.runtime.status = statusPriority b.runtime.status ∧
    compareVersions a.runtime.version b.runtime.version = 0 ∧
    sourcePriority a.runtime.source = sourcePriority b.runtime.source ∧
    a.id = b.id := by
  by_cases h1 : (statusPriority b.runtime.status : Int) -
      (statusPriority a.runtime.status : Int) = 0
  · by_cases h2 : compareVersions a.runtime.version b.runtime.version = 0
    · by_cases h3 : (sourcePriority b.runtime.source : Int) -
          (sourcePriority a.runtime.source : Int) = 0
      · rw [promptCompare_id_level a b h1 h2 h3] at h
        exact ⟨by omega, h2, by omega, (strCompare_eq_zero_iff _ _).mp h⟩
      · rw [promptCompare_source_ne a b h1 h2 h3] at h
        exact absurd h h3
    · rw [promptCompare_version_ne a b h1 h2] at h
      exact absurd h h2
  · rw [promptCompare_status_ne a b h1] at h
    exact absurd h h1

theorem promptCompare_le_trans (a b c : PendingPromptRegistration)
    (h1 : promptCompare a b ≤ 0) (h2 : promptCompare b c ≤ 0) :
    promptCompare a c ≤ 0 := by
  by_cases hs1 : (statusPriority b.runtime.status : Int) -
      (statusPriority a.runtime.status : Int) = 0
  · by_cases hs2 : (statusPriority c.runtime.status : Int) -
        (statusPriority b.runtime.status : Int) = 0
    · have hs3 : (statusPriority c.runtime.status : Int) -
          (statusPriority a.runtime.status : Int) = 0 := by omega
      by_cases hv1 : compareVersions a.runtime.version b.runtime.version = 0
      · have hcongr := compareVersions_zero_congr _ _ c.runtime.version hv1
        by_cases hv2 : compareVersions b.runtime.version c.runtime.version = 0
        · have hv3 : compareVersions a.runtime.version c.runtime.version = 0 := by omega
          by_cases hq1 : (sourcePriority b.runtime.source : Int) -
              (sourcePriority a.runtime.source : Int) = 0
          · by_cases hq2 : (sourcePriority c.runtime.source : Int) -
                (sourcePriority b.runtime.source : Int) = 0
            · have hq3 : (sourcePriority c.runtime.source : Int) -
                  (sourcePriority a.runtime.source : Int) = 0 := by omega
              rw [promptCompare_id_level a b hs1 hv1 hq1] at h1
              rw [promptCompare_id_level b c hs2 hv2 hq2] at h2
              rw [promptCompare_id_level a c hs3 hv3 hq3]
              exact (strCompare_nonpos_iff _ _).mpr
                (le_trans ((strCompare_nonpos_iff _ _).mp h1)
                  ((strCompare_nonpos_iff _ _).mp h2))
            · rw [promptCompare_source_ne b c hs2 hv2 hq2] at h2
              have hq3 : (sourcePriority c.runtime.source : Int) -
                  (sourcePriority a.runtime.source : Int) ≠ 0 := by omega
              rw [promptCompare_source_ne a c hs3 hv3 hq3]
              omega
          · rw [promptCompare_source_ne a b hs1 hv1 hq1] at h1
            by_cases hq2 : (sourcePriority c.runtime.source : Int) -
                (sourcePriority b.runtime.source : Int) = 0
            · have hq3 : (sourcePriority c.runtime.source : Int) -
                  (sourcePriority a.runtime.source : Int) ≠ 0 := by omega
              rw [promptCompare_source_ne a c hs3 hv3 hq3]
              omega
            · rw [promptCompare_source_ne b c hs2 hv2 hq2] at h2
              have hq3 : (sourcePriority c.runtime.source : Int) -
                  (sourcePriority a.runtime.source : Int) ≠ 0 := by omega
              rw [promptCompare_source_ne a c hs3 hv3 hq3]
              omega
        · rw [promptCompare_version_ne b c hs2 hv2] at h2
          have hv3 : compareVersions a.runtime.version c.runtime.version ≠ 0 := by omega
          rw [promptCompare_version_ne a c hs3 hv3]
          omega
      · rw [promptCompare_version_ne a b hs1 hv1] at h1
        by_cases hv2 : compareVersions b.runtime.version c.runtime.version = 0
        · have hcb : compareVersions c.runtime.version b.runtime.version = 0 := by
            have hx := compareVersions_antisymm b.runtime.version c.runtime.version
            omega
          have hcongr := compareVersions_zero_congr _ _ a.runtime.version hcb
          have hac : compareVersions a.runtime.version c.runtime.version =
              compareVersions a.runtime.version b.runtime.version := by
            have h5 := compareVersions_antisymm b.runtime.version a.runtime.version
            have h6 := compareVersions_antisymm c.runtime.version a.runtime.version
            omega
          rw [promptCompare_version_ne a c hs3 (by omega)]
          omega
        · rw [promptCompare_version_ne b c hs2 hv2] at h2
          have htr := compareVersions_le_trans _ _ _ h1 h2
          have hne : compareVersions a.runtime.version c.runtime.version ≠ 0 := by
            intro h0
            have hcongr := compareVersions_zero_congr _ _ b.runtime.version h0
            have h5 := compareVersions_antisymm b.runtime.version c.runtime.version
            omega
          rw [promptCompare_version_ne a c hs3 hne]
          omega
    · rw [promptCompare_status_ne b c hs2] at h2
      have hs3 : (statusPriority c.runtime.status : Int) -
          (statusPriority a.runtime.status : Int) ≠ 0 := by omega
      rw [promptCompare_status_ne a c hs3]
      omega
  · rw [promptCompare_status_ne a b hs1] at h1
    by_cases hs2 : (statusPriority c.runtime.status : Int) -
        (statusPriority b.runtime.status : Int) = 0
    · have hs3 : (statusPriority c.runtime.status : Int) -
          (statusPriority a.runtime.status : Int) ≠ 0 := by omega
      rw [promptCompare_status_ne a c hs3]
      omega
    · rw [promptCompare_status_ne b c hs2] at h2
      have hs3 : (statusPriority c.runtime.status : Int) -
          (statusPriority a.runtime.status : Int) ≠ 0 := by omega
      rw [promptCompare_status_ne a c hs3]
      omega

theorem promptLe_total (a b : PendingPromptRegistration) :
    (promptLe a b || promptLe b a) = true := by
  unfold promptLe
  have h := promptCompare_antisymm a b
  by_cases hab : promptCompare a b ≤ 0
  · simp [hab]
  · have hba : promptCompare b a ≤ 0 := by omega
    simp [hba]

theorem promptLe_trans (a b c : PendingPromptRegistration)
    (h1 : promptLe a b = true) (h2 : promptLe b c = true) : promptLe a c = true := by
  unfold promptLe at h1 h2 ⊢
  simp only [decide_eq_true_eq] at h1 h2 ⊢
  exact promptCompare_le_trans a b c h1 h2

theorem eq_of_perm_of_sorted_promptLe :
    ∀ (l₁ l₂ : List PendingPromptRegistration),
      l₁.Perm l₂ →
      l₁.Pairwise (fun x y => promptLe x y = true) →
      l₂.Pairwise (fun x y => promptLe x y = true) →
      (∀ x ∈ l₁, ∀ y ∈ l₁, promptLe x y = true → promptLe y x = true → x = y) →
      l₁ = l₂ := by
  intro l₁
  induction l₁ with
  | nil =>
    intro l₂ hp _ _ _
    exact (List.Perm.eq_nil hp.symm).symm
  | cons a t₁ ih =>
    intro l₂ hp hs₁ hs₂ hanti
    cases l₂ with
    | nil => exact absurd (List.Perm.eq_nil hp) (by simp)
    | cons b t₂ =>
      have hmema : a ∈ b :: t₂ := hp.mem_iff.mp (List.mem_cons_self a t₁)
      have hab : a = b := by
        by_contra hne
        have hbmem : b ∈ a :: t₁ := hp.symm.mem_iff.mp (List.mem_cons_self b t₂)
        have hb1 : b ∈ t₁ := by
          rcases List.mem_cons.mp hbmem with h | h
          · exact absurd h.symm hne
          · exact h
        have ha2 : a ∈ t₂ := by
          rcases List.mem_cons.mp hmema with h | h
          · exact absurd h hne
          · exact h
        have h1 : promptLe a b = true := (List.pairwise_cons.mp hs₁).1 b hb1
        have h2 : promptLe b a = true := (List.pairwise_cons.mp hs₂).1 a ha2
        exact hne (hanti a (List.mem_cons_self a t₁) b (List.mem_cons_of_mem a hb1) h1 h2)
      subst hab
      have hp' := hp.cons_inv
      have ht := ih t₂ hp' (List.pairwise_cons.mp hs₁).2 (List.pairwise_cons.mp hs₂).2
        (fun x hx y hy => hanti x (List.mem_cons_of_mem a hx) y (List.mem_cons_of_mem a hy))
      rw [ht]

/-- C7: the comparator of `sortPromptsByPriority` realises the claimed
total order — status ranked stable=4 > draft=3 > deprecated=2 > legacy=1,
then the version compared componentwise with missing components read as 0
(newer first), then source ranked registry=3 > embedded=2 > legacy=1, then
the id — it is total and transitive, and on any set of registrations with
pairwise-distinct ids the sorted output is independent of the scan order,
so two successive full reloads of an unchanged tree register in the same
order. -/
theorem sortPromptsByPriority_total_order :
    (statusPriority PromptStatus.stable = 4 ∧ statusPriority PromptStatus.draft = 3 ∧
      statusPriority PromptStatus.deprecated = 2 ∧ statusPriority PromptStatus.legacy = 1) ∧
    (sourcePriority PromptSource.registry = 3 ∧ sourcePriority PromptSource.embedded = 2 ∧
      sourcePriority PromptSource.legacy = 1) ∧
    (∀ a b : List Nat, compareVersions (a ++ [0]) b = compareVersions a b ∧
      compareVersions a (b ++ [0]) = compareVersions a b) ∧
    (∀ a b : PendingPromptRegistration, (promptLe a b || promptLe b a) = true) ∧
    (∀ a b c : PendingPromptRegistration,
      promptLe a b = true → promptLe b c = true → promptLe a c = true) ∧
    (∀ l₁ l₂ : List PendingPromptRegistration,
      l₁.Pairwise (fun x y => x.id ≠ y.id) → l₁.Perm l₂ →
      sortPromptsByPriority l₁ = sortPromptsByPriority l₂) := by
  refine ⟨⟨rfl, rfl, rfl, rfl⟩, ⟨rfl, rfl, rfl⟩, ?_, promptLe_total, promptLe_trans, ?_⟩
  · intro a b
    exact ⟨compareVersions_append_zero_left a b, compareVersions_append_zero_right a b⟩
  · intro l₁ l₂ hdist hperm
    have hsymm : Symmetric (fun x y : PendingPromptRegistration => x.id ≠ y.id) :=
      fun u v h hh => h hh.symm
    have hanti : ∀ x ∈ l₁, ∀ y ∈ l₁,
        promptLe x y = true → promptLe y x = true → x = y := by
      intro x hx y hy hxy hyx
      by_contra hne
      have hidne : x.id ≠ y.id := (List.Pairwise.forall hsymm hdist) hx hy hne
      have h0 : promptCompare x y = 0 := by
        unfold promptLe at hxy hyx
        simp only [decide_eq_true_eq] at hxy hyx
        have ha := promptCompare_antisymm x y
        omega
      exact hidne (promptCompare_eq_zero_parts x y h0).2.2.2
    unfold sortPromptsByPriority
    apply eq_of_perm_of_sorted_promptLe
    · exact (List.perm_insertionSort _ l₁).trans
        (hperm.trans (List.perm_insertionSort _ l₂).symm)
    · haveI ht : IsTrans PendingPromptRegistration (fun a b => promptLe a b = true) :=
        ⟨promptLe_trans⟩
      haveI hto : IsTotal PendingPromptRegistration (fun a b => promptLe a b = true) :=
        ⟨fun a b => by
          have h := promptLe_total a b
          rcases Bool.or_eq_true_iff.mp h with h1 | h1
          · exact Or.inl h1
          · exact Or.inr h1⟩
      exact List.sorted_insertionSort _ l₁
    · haveI ht : IsTrans PendingPromptRegistration (fun a b => promptLe a b = true) :=
        ⟨promptLe_trans⟩
      haveI hto : IsTotal PendingPromptRegistration (fun a b => promptLe a b = true) :=
        ⟨fun a b => by
          have h := promptLe_total a b
          rcases Bool.or_eq_true_iff.mp h with h1 | h1
          · exact Or.inl h1
          · exact Or.inr h1⟩
      exact List.sorted_insertionSort _ l₂
    · intro x hx y hy
      exact hanti x ((List.mem_insertionSort _).mp hx) y ((List.mem_insertionSort _).mp hy)

/-- Witness for C7: two concrete registrations with distinct ids sort to
the same output from either input order. -/
theorem sortPromptsByPriority_total_order_witness :
    sortPromptsByPriority
      [⟨"alpha", ⟨"alpha", "A", [1, 0, 0], PromptStatus.stable, [], [],
        PromptRuntimeState.active, PromptSource.embedded, "root", none⟩⟩,
       ⟨"beta", ⟨"beta", "B", [1, 0, 1], PromptStatus.draft, [], [],
        PromptRuntimeState.active, PromptSource.legacy, "root", none⟩⟩] =
    sortPromptsByPriority
      [⟨"beta", ⟨"beta", "B", [1, 0, 1], PromptStatus.draft, [], [],
        PromptRuntimeState.active, PromptSource.legacy, "root", none⟩⟩,
       ⟨"alpha", ⟨"alpha", "A", [1, 0, 0], PromptStatus.stable, [], [],
        PromptRuntimeState.active, PromptSource.embedded, "root", none⟩⟩] := by
  exact sortPromptsByPriority_total_order.2.2.2.2.2 _ _ (by decide)
    (List.Perm.swap _ _ [])

/-! The reload pipeline.  A `PromptFile` is one YAML file that passed the
group filter and `PromptDefinitionSchema`; external outcomes appear as
oracle fields: `metadata` is the result of the `PromptMetadataSchema`
parse (`some` = success), `metadataInvalid` records `isMetadataPrompt`
holding while that parse failed, and `compiles` is the
`Handlebars.compile` outcome.  `LoaderState` gathers the module-level
mutable registries of `src/services/loaders.ts`; tool handles are
numbered by `nextHandle` so that handle identity is observable. -/

/-- One scanned document together with its external-parse outcomes. -/
structure PromptFile where
  pdef : PromptDefinition
  metadata : Option PromptMetadata
  metadataInvalid : Bool
  groupName : String
  compiles : Bool
deriving DecidableEq

/-- Base classification from the metadata outcome (`loadPrompts`,
lines 681–706). -/
def baseClassification (f : PromptFile) : PromptRuntimeState × PromptSource :=
  match f.metadata with
  | some _ => (PromptRuntimeState.active, PromptSource.embedded)
  | none =>
    if f.metadataInvalid then (PromptRuntimeState.warning, PromptSource.embedded)
    else (PromptRuntimeState.legacy, PromptSource.legacy)

/-- Classification after the partial-dependency demotion (`loadPrompts`,
lines 708–736). -/
def fileRuntimeState (f : PromptFile) : PromptRuntimeState :=
  applyPartialCheck (baseClassification f).1 f.pdef.template
    ((f.metadata.map (fun md => md.dependenciesPartials)).getD [])

/-- The `PromptRuntime` stored for a scanned document (`loadPrompts`,
lines 738–750). -/
def fileRuntime (registry : Option Registry) (f : PromptFile) : PromptRuntime :=
  createPromptRuntime f.pdef f.metadata f.groupName registry
    (some (fileRuntimeState f)) (some (baseClassification f).2)

/-- The module-level mutable state of `src/services/loaders.ts`:
`registeredToolRefs`, `registeredPromptIds`, `promptRuntimeMap` and
`registeredPartials`. -/
structure LoaderState where
  registeredToolRefs : List (String × Nat)
  registeredPromptIds : List String
  promptRuntimeMap : List (String × PromptRuntime)
  registeredPartials : List String
  nextHandle : Nat
deriving DecidableEq

/-- Accumulator of the scan loop of `loadPrompts`. -/
structure LoadAcc where
  runtimeMap : List (String × PromptRuntime)
  pending : List PendingPromptRegistration
  errorCount : Nat
deriving DecidableEq

/-- Scan step of `loadPrompts` for one document (lines 661–826): store
the runtime regardless of state; if the state is `active` or `legacy`,
compile the template and either collect a pending registration or record
a compile error. -/
def processFile (registry : Option Registry) (acc : LoadAcc) (f : PromptFile) : LoadAcc :=
  let rt := fileRuntime registry f
  let m := mapSet acc.runtimeMap f.pdef.id rt
  if rt.runtime_state = PromptRuntimeState.active ∨
      rt.runtime_state = PromptRuntimeState.legacy then
    if f.compiles then
      { runtimeMap := m, pending := acc.pending ++ [⟨f.pdef.id, rt⟩],
        errorCount := acc.errorCount }
    else
      { runtimeMap := m, pending := acc.pending, errorCount := acc.errorCount + 1 }
  else
    { runtimeMap := m, pending := acc.pending, errorCount := acc.errorCount }

/-- Registration step of `loadPrompts` for one pending prompt
(lines 836–1043): register the prompt and the tool, record the new
handle, and add the id to the new-tool set. -/
def registerStep (acc : LoaderState × List String) (p : PendingPromptRegistration) :
    LoaderState × List String :=
  ({ acc.1 with
      registeredPromptIds := setAdd acc.1.registeredPromptIds p.id
      registeredToolRefs := mapSet acc.1.registeredToolRefs p.id acc.1.nextHandle
      nextHandle := acc.1.nextHandle + 1 },
    setAdd acc.2 p.id)

/-- Full scan-sort-register sequence of `loadPrompts` (lines 596–1074),
returning the new state, the `newToolIds` set, the loaded count and the
error count.  `promptRuntimeMap.clear()` happens at entry (line 608). -/
def loadPrompts (registry : Option Registry) (files : List PromptFile) (s : LoaderState) :
    LoaderState × List String × Nat × Nat :=
  let acc := files.foldl (processFile registry) ⟨[], [], 0⟩
  let sorted := sortPromptsByPriority acc.pending
  let s0 : LoaderState := { s with promptRuntimeMap := [] }
  let fold := sorted.foldl registerStep (s0, [])
  ({ fold.1 with promptRuntimeMap := acc.runtimeMap }, fold.2, sorted.length, acc.errorCount)

/-- One removal of `removeOldPrompts` (lines 1490–1503): if the id still
has a tool ref, remove the tool and drop the id from all three
registries. -/
def removeStep (st : LoaderState) (toolId : String) : LoaderState :=
  match mapGet st.registeredToolRefs toolId with
  | some _ =>
    { st with
        registeredToolRefs := mapDelete st.registeredToolRefs toolId
        registeredPromptIds := setDelete st.registeredPromptIds toolId
        promptRuntimeMap := mapDelete st.promptRuntimeMap toolId }
  | none => st

/-- `removeOldPrompts` (lines 1479–1511): remove every registered tool
whose id is not in the new-tool set. -/
def removeOldPrompts (newToolIds : List String) (s : LoaderState) : LoaderState :=
  let toolsToRemove :=
    (mapKeys s.registeredToolRefs).filter (fun id => !(newToolIds.contains id))
  toolsToRemove.foldl removeStep s

/-- Failure cases of a full reload surfaced to the caller. -/
inductive ReloadError where
  | syncError
deriving DecidableEq

/-- `reloadPrompts` (lines 1907–1978): sync the repository first — a
failure aborts before any mutation — then clear and reload partials,
run `loadPrompts`, and finish the dual swap with `removeOldPrompts`.
`syncOk` is the outcome of the `syncRepo` oracle and `newPartials` the
partial names found on disk by `loadPartials`. -/
def reloadPrompts (syncOk : Bool) (newPartials : List String) (registry : Option Registry)
    (files : List PromptFile) (s : LoaderState) :
    LoaderState × Except ReloadError (Nat × Nat) :=
  if !syncOk then (s, Except.error ReloadError.syncError)
  else
    let s1 : LoaderState := { s with registeredPartials := [] }
    let s2 : LoaderState := { s1 with registeredPartials := newPartials }
    let out := loadPrompts registry files s2
    let s4 := removeOldPrompts out.2.1 out.1
    (s4, Except.ok (out.2.2.1, out.2.2.2))

/-- Final state of a reload call. -/
def reloadResultState (syncOk : Bool) (newPartials : List String) (registry : Option Registry)
    (files : List PromptFile) (s : LoaderState) : LoaderState :=
  (reloadPrompts syncOk newPartials registry files s).1

/-- C6: when the sync step fails, the reload returns the sync error and
the previous state is untouched — no tool handle is removed, no partial
is unregistered, the runtime map is unchanged and no registration
happened. -/
theorem reloadPrompts_sync_failure_atomic (newPartials : List String)
    (registry : Option Registry) (files : List PromptFile) (s : LoaderState) :
    (reloadPrompts false newPartials registry files s).2 =
      Except.error ReloadError.syncError ∧
    (reloadResultState false newPartials registry files s).registeredToolRefs =
      s.registeredToolRefs ∧
    (reloadResultState false newPartials registry files s).registeredPromptIds =
      s.registeredPromptIds ∧
    (reloadResultState false newPartials registry files s).registeredPartials =
      s.registeredPartials ∧
    (reloadResultState false newPartials registry files s).promptRuntimeMap =
      s.promptRuntimeMap := by
  exact ⟨rfl, rfl, rfl, rfl, rfl⟩

/-- Whether the tool-handle index contains an entry for the id. -/
def toolRegistered (s : LoaderState) (id : String) : Bool :=
  (mapGet s.registeredToolRefs id).isSome

/-- Whether the runtime map holds an entry classified `active` or
`legacy` for the id. -/
def runtimeEligible (s : LoaderState) (id : String) : Bool :=
  match mapGet s.promptRuntimeMap id with
  | some rt => decide (rt.runtime_state = PromptRuntimeState.active ∨
      rt.runtime_state = PromptRuntimeState.legacy)
  | none => false

/-- Whether a file's final runtime is eligible for tool registration. -/
def fileEligible (registry : Option Registry) (f : PromptFile) : Bool :=
  decide ((fileRuntime registry f).runtime_state = PromptRuntimeState.active ∨
    (fileRuntime registry f).runtime_state = PromptRuntimeState.legacy)

/-- The pending registrations produced by a scan, in scan order. -/
def pendingOf (registry : Option Registry) (files : List PromptFile) :
    List PendingPromptRegistration :=
  files.filterMap (fun f =>
    if fileEligible registry f && f.compiles then
      some ⟨f.pdef.id, fileRuntime registry f⟩
    else none)

theorem processFile_runtimeMap (registry : Option Registry) (acc : LoadAcc) (f : PromptFile) :
    (processFile registry acc f).runtimeMap =
      mapSet acc.runtimeMap f.pdef.id (fileRuntime registry f) := by
  unfold processFile
  simp only []
  split
  · split <;> rfl
  · rfl

theorem processFile_pending (registry : Option Registry) (acc : LoadAcc) (f : PromptFile) :
    (processFile registry acc f).pending =
      acc.pending ++ (if fileEligible registry f && f.compiles then
        [⟨f.pdef.id, fileRuntime registry f⟩] else []) := by
  unfold processFile fileEligible
  simp only []
  by_cases he : (fileRuntime registry f).runtime_state = PromptRuntimeState.active ∨
      (fileRuntime registry f).runtime_state = PromptRuntimeState.legacy
  · by_cases hc : f.compiles
    · simp [he, hc]
    · simp [he, hc]
  · simp [he]

theorem foldl_processFile_pending (registry : Option Registry) :
    ∀ (files : List PromptFile) (acc : LoadAcc),
      (files.foldl (processFile registry) acc).pending =
        acc.pending ++ pendingOf registry files := by
  intro files
  induction files with
  | nil =>
    intro acc
    simp [pendingOf]
  | cons f t ih =>
    intro acc
    rw [List.foldl_cons, ih]
    have hrhs : pendingOf registry (f :: t) =
        (if (fileEligible registry f && f.compiles) = true then
          [⟨f.pdef.id, fileRuntime registry f⟩] else []) ++ pendingOf registry t := by
      unfold pendingOf
      rw [List.filterMap_cons]
      by_cases hcond : (fileEligible registry f && f.compiles) = true
      · rw [if_pos hcond, if_pos hcond]
        rfl
      · rw [if_neg hcond, if_neg hcond]
        rfl
    rw [hrhs, processFile_pending]
    by_cases hcond : (fileEligible registry f && f.compiles) = true
    · rw [if_pos hcond, List.append_assoc]
    · rw [if_neg hcond, List.append_assoc]

theorem foldl_processFile_runtimeMap_not_mem (registry : Option Registry) :
    ∀ (files : List PromptFile) (acc : LoadAcc) (id : String),
      (∀ f ∈ files, f.pdef.id ≠ id) →
      mapGet (files.foldl (processFile registry) acc).runtimeMap id =
        mapGet acc.runtimeMap id := by
  intro files
  induction files with
  | nil =>
    intro acc id _
    rfl
  | cons f t ih =>
    intro acc id h
    rw [List.foldl_cons, ih _ id (fun g hg => h g (List.mem_cons_of_mem f hg))]
    rw [processFile_runtimeMap, mapGet_mapSet]
    exact if_neg (fun hh => h f (List.mem_cons_self f t) hh.symm)

theorem foldl_processFile_runtimeMap_mem (registry : Option Registry) :
    ∀ (files : List PromptFile) (acc : LoadAcc) (id : String) (f : PromptFile),
      files.Pairwise (fun a b => a.pdef.id ≠ b.pdef.id) →
      f ∈ files → f.pdef.id = id →
      mapGet (files.foldl (processFile registry) acc).runtimeMap id =
        some (fileRuntime registry f) := by
  intro files
  induction files with
  | nil =>
    intro acc id f _ hf _
    exact absurd hf (List.not_mem_nil f)
  | cons g t ih =>
    intro acc id f hdist hf hid
    rw [List.foldl_cons]
    rcases List.mem_cons.mp hf with rfl | hf'
    · have hnone : ∀ f' ∈ t, f'.pdef.id ≠ id := by
        intro f' hf' hh
        have h2 : f.pdef.id ≠ f'.pdef.id := (List.pairwise_cons.mp hdist).1 f' hf'
        exact h2 (hid.trans hh.symm)
      rw [foldl_processFile_runtimeMap_not_mem registry t _ id hnone]
      rw [processFile_runtimeMap, mapGet_mapSet, if_pos hid.symm]
    · exact ih _ id f (List.pairwise_cons.mp hdist).2 hf' hid

theorem foldl_registerStep_toolRefs :
    ∀ (sorted : List PendingPromptRegistration) (acc : LoaderState × List String)
      (id : String),
      (mapGet (sorted.foldl registerStep acc).1.registeredToolRefs id).isSome = true ↔
        (∃ p ∈ sorted, p.id = id) ∨
          (mapGet acc.1.registeredToolRefs id).isSome = true := by
  intro sorted
  induction sorted with
  | nil =>
    intro acc id
    simp
  | cons p t ih =>
    intro acc id
    rw [List.foldl_cons, ih]
    have hfst : (registerStep acc p).1.registeredToolRefs =
        mapSet acc.1.registeredToolRefs p.id acc.1.nextHandle := rfl
    constructor
    · rintro (⟨q, hq, hqid⟩ | hbase)
      · exact Or.inl ⟨q, List.mem_cons_of_mem p hq, hqid⟩
      · rw [hfst, mapGet_mapSet] at hbase
        by_cases hid : id = p.id
        · exact Or.inl ⟨p, List.mem_cons_self p t, hid.symm⟩
        · rw [if_neg hid] at hbase
          exact Or.inr hbase
    · rintro (⟨q, hq, hqid⟩ | hbase)
      · rcases List.mem_cons.mp hq with rfl | hq'
        · refine Or.inr ?_
          rw [hfst, mapGet_mapSet, if_pos hqid.symm]
          rfl
        · exact Or.inl ⟨q, hq', hqid⟩
      · refine Or.inr ?_
        rw [hfst, mapGet_mapSet]
        by_cases hid : id = p.id
        · rw [if_pos hid]
          rfl
        · rw [if_neg hid]
          exact hbase

theorem foldl_registerStep_newIds :
    ∀ (sorted : List PendingPromptRegistration) (acc : LoaderState × List String)
      (id : String),
      id ∈ (sorted.foldl registerStep acc).2 ↔
        (∃ p ∈ sorted, p.id = id) ∨ id ∈ acc.2 := by
  intro sorted
  induction sorted with
  | nil =>
    intro acc id
    simp
  | cons p t ih =>
    intro acc id
    rw [List.foldl_cons, ih]
    have hsnd : (registerStep acc p).2 = setAdd acc.2 p.id := rfl
    rw [hsnd, mem_setAdd]
    constructor
    · rintro (⟨q, hq, hqid⟩ | h | h)
      · exact Or.inl ⟨q, List.mem_cons_of_mem p hq, hqid⟩
      · exact Or.inr h
      · exact Or.inl ⟨p, List.mem_cons_self p t, h.symm⟩
    · rintro (⟨q, hq, hqid⟩ | h)
      · rcases List.mem_cons.mp hq with rfl | hq'
        · exact Or.inr (Or.inr hqid.symm)
        · exact Or.inl ⟨q, hq', hqid⟩
      · exact Or.inr (Or.inl h)

theorem foldl_registerStep_runtimeMap :
    ∀ (sorted : List PendingPromptRegistration) (acc : LoaderState × List String),
      (sorted.foldl registerStep acc).1.promptRuntimeMap = acc.1.promptRuntimeMap := by
  intro sorted
  induction sorted with
  | nil =>
    intro acc
    rfl
  | cons p t ih =>
    intro acc
    rw [List.foldl_cons, ih]
    rfl

theorem removeFold_toolRefs :
    ∀ (rem : List String) (s : LoaderState) (id : String),
      mapGet ((rem.foldl removeStep s).registeredToolRefs) id =
        if id ∈ rem then none else mapGet s.registeredToolRefs id := by
  intro rem
  induction rem with
  | nil =>
    intro s id
    simp
  | cons h t ih =>
    intro s id
    rw [List.foldl_cons]
    rcases hh : mapGet s.registeredToolRefs h with _ | v
    · have hstep : removeStep s h = s := by
        unfold removeStep
        rw [hh]
      rw [hstep, ih]
      by_cases hid : id = h
      · subst hid
        by_cases hmem : id ∈ t
        · simp [hmem]
        · simp [hmem, hh]
      · by_cases hmem : id ∈ t
        · simp [hmem, hid]
        · simp [hmem, hid]
    · have hstep : removeStep s h =
          { s with
              registeredToolRefs := mapDelete s.registeredToolRefs h
              registeredPromptIds := setDelete s.registeredPromptIds h
              promptRuntimeMap := mapDelete s.promptRuntimeMap h } := by
        unfold removeStep
        rw [hh]
      rw [hstep, ih]
      simp only [mapGet_mapDelete]
      by_cases hid : id = h
      · subst hid
        by_cases hmem : id ∈ t
        · simp [hmem]
        · simp [hmem]
      · by_cases hmem : id ∈ t
        · simp [hmem, hid]
        · simp [hmem, hid]

theorem removeFold_runtimeMap :
    ∀ (rem : List String) (s : LoaderState) (id : String),
      mapGet ((rem.foldl removeStep s).promptRuntimeMap) id =
        if id ∈ rem ∧ (mapGet s.registeredToolRefs id).isSome = true then none
        else mapGet s.promptRuntimeMap id := by
  intro rem
  induction rem with
  | nil =>
    intro s id
    simp
  | cons h t ih =>
    intro s id
    rw [List.foldl_cons]
    rcases hh : mapGet s.registeredToolRefs h with _ | v
    · have hstep : removeStep s h = s := by
        unfold removeStep
        rw [hh]
      rw [hstep, ih]
      by_cases hid : id = h
      · subst hid
        rw [hh]
        by_cases hmem : id ∈ t
        · simp [hmem, hh]
        · simp [hmem, hh]
      · by_cases hmem : id ∈ t
        · simp [hmem, hid]
        · simp [hmem, hid]
    · have hstep : removeStep s h =
          { s with
              registeredToolRefs := mapDelete s.registeredToolRefs h
              registeredPromptIds := setDelete s.registeredPromptIds h
              promptRuntimeMap := mapDelete s.promptRuntimeMap h } := by
        unfold removeStep
        rw [hh]
      rw [hstep, ih]
      simp only [mapGet_mapDelete]
      by_cases hid : id = h
      · subst hid
        rw [hh]
        by_cases hmem : id ∈ t
        · simp [hmem]
        · simp [hmem]
      · by_cases hmem : id ∈ t
        · simp [hmem, hid]
        · simp [hmem, hid]

theorem mem_removeFilter (s : LoaderState) (newToolIds : List String) (id : String) :
    id ∈ (mapKeys s.registeredToolRefs).filter (fun x => !(newToolIds.contains x)) ↔
      (mapGet s.registeredToolRefs id).isSome = true ∧ id ∉ newToolIds := by
  rw [List.mem_filter, mem_mapKeys_iff]
  simp

theorem removeOldPrompts_toolRefs (newToolIds : List String) (s : LoaderState) (id : String) :
    mapGet (removeOldPrompts newToolIds s).registeredToolRefs id =
      if (mapGet s.registeredToolRefs id).isSome = true ∧ id ∉ newToolIds then none
      else mapGet s.registeredToolRefs id := by
  unfold removeOldPrompts
  simp only []
  rw [removeFold_toolRefs]
  by_cases h : id ∈ (mapKeys s.registeredToolRefs).filter (fun x => !(newToolIds.contains x))
  · rw [if_pos h, if_pos ((mem_removeFilter s newToolIds id).mp h)]
  · rw [if_neg h, if_neg (fun hc => h ((mem_removeFilter s newToolIds id).mpr hc))]

theorem removeOldPrompts_runtimeMap (newToolIds : List String) (s : LoaderState) (id : String) :
    mapGet (removeOldPrompts newToolIds s).promptRuntimeMap id =
      if (mapGet s.registeredToolRefs id).isSome = true ∧ id ∉ newToolIds then none
      else mapGet s.promptRuntimeMap id := by
  unfold removeOldPrompts
  simp only []
  rw [removeFold_runtimeMap]
  by_cases h : id ∈ (mapKeys s.registeredToolRefs).filter (fun x => !(newToolIds.contains x))
  · have hmp := (mem_removeFilter s newToolIds id).mp h
    rw [if_pos ⟨h, hmp.1⟩, if_pos hmp]
  · by_cases hsome : (mapGet s.registeredToolRefs id).isSome = true
    · have hmem : id ∈ newToolIds := by
        by_contra hnot
        exact h ((mem_removeFilter s newToolIds id).mpr ⟨hsome, hnot⟩)
      rw [if_neg (fun hc => h hc.1), if_neg (fun hc => hc.2 hmem)]
    · rw [if_neg (fun hc => hsome hc.2), if_neg (fun hc => hsome hc.1)]

theorem mem_pendingOf_iff (registry : Option Registry) (files : List PromptFile) (id : String) :
    (∃ p ∈ pendingOf registry files, p.id = id) ↔
      ∃ f ∈ files, f.pdef.id = id ∧ fileEligible registry f = true ∧ f.compiles = true := by
  unfold pendingOf
  constructor
  · rintro ⟨p, hp, hpid⟩
    obtain ⟨f, hf, hsome⟩ := List.mem_filterMap.mp hp
    by_cases hcond : (fileEligible registry f && f.compiles) = true
    · rw [if_pos hcond] at hsome
      obtain ⟨h1, h2⟩ := Bool.and_eq_true_iff.mp hcond
      injection hsome with hsome
      refine ⟨f, hf, ?_, h1, h2⟩
      rw [← hpid, ← hsome]
    · rw [if_neg hcond] at hsome
      exact absurd hsome (by simp)
  · rintro ⟨f, hf, hid, hel, hcomp⟩
    refine ⟨⟨f.pdef.id, fileRuntime registry f⟩, ?_, hid⟩
    apply List.mem_filterMap.mpr
    refine ⟨f, hf, ?_⟩
    rw [if_pos (by rw [hel, hcomp]; rfl)]

theorem mem_sorted_pending_iff (registry : Option Registry) (files : List PromptFile)
    (id : String) :
    (∃ p ∈ sortPromptsByPriority
        (files.foldl (processFile registry) ⟨[], [], 0⟩).pending, p.id = id) ↔
      ∃ f ∈ files, f.pdef.id = id ∧ fileEligible registry f = true ∧ f.compiles = true := by
  rw [← mem_pendingOf_iff registry files id]
  constructor
  · rintro ⟨p, hp, hpid⟩
    refine ⟨p, ?_, hpid⟩
    have hmem := (List.mem_insertionSort _).mp hp
    rwa [foldl_processFile_pending, List.nil_append] at hmem
  · rintro ⟨p, hp, hpid⟩
    refine ⟨p, ?_, hpid⟩
    apply (List.mem_insertionSort _).mpr
    rw [foldl_processFile_pending, List.nil_append]
    exact hp

theorem loadPrompts_newIds_mem (registry : Option Registry) (files : List PromptFile)
    (st : LoaderState) (id : String) :
    id ∈ (loadPrompts registry files st).2.1 ↔
      ∃ f ∈ files, f.pdef.id = id ∧ fileEligible registry f = true ∧ f.compiles = true := by
  unfold loadPrompts
  simp only []
  rw [foldl_registerStep_newIds]
  simp only [List.not_mem_nil, or_false]
  exact mem_sorted_pending_iff registry files id

theorem loadPrompts_toolRefs_isSome (registry : Option Registry) (files : List PromptFile)
    (st : LoaderState) (id : String) :
    (mapGet (loadPrompts registry files st).1.registeredToolRefs id).isSome = true ↔
      (∃ f ∈ files, f.pdef.id = id ∧ fileEligible registry f = true ∧ f.compiles = true) ∨
        (mapGet st.registeredToolRefs id).isSome = true := by
  unfold loadPrompts
  simp only []
  rw [foldl_registerStep_toolRefs]
  rw [mem_sorted_pending_iff registry files id]

theorem loadPrompts_runtimeMap (registry : Option Registry) (files : List PromptFile)
    (st : LoaderState) :
    (loadPrompts registry files st).1.promptRuntimeMap =
      (files.foldl (processFile registry) ⟨[], [], 0⟩).runtimeMap := rfl

/-- C1 (amended): after a completed full reload in which the scanned
documents have pairwise-distinct ids and every document classified
`active` or `legacy` has a compiling template, the tool-handle index
contains an entry for an id exactly when the runtime map holds an entry
with `runtime_state` `active` or `legacy` for it; documents classified
`warning`, `invalid` or `disabled` are never tool-registered.  (The
claim's unconditional iff fails in two ways, each exhibited by the
counterexample: an eligible document whose template does not compile,
and two documents sharing an id where a later non-eligible entry
overwrites the runtime entry of the registered one.) -/
theorem reload_tool_index_matches_runtime (newPartials : List String)
    (registry : Option Registry) (files : List PromptFile) (s : LoaderState)
    (hdist : files.Pairwise (fun a b => a.pdef.id ≠ b.pdef.id))
    (hcomp : ∀ f ∈ files, fileEligible registry f = true → f.compiles = true)
    (id : String) :
    toolRegistered (reloadResultState true newPartials registry files s) id =
      runtimeEligible (reloadResultState true newPartials registry files s) id := by
  have hstate : reloadResultState true newPartials registry files s =
      removeOldPrompts
        (loadPrompts registry files
          { s with registeredPartials := newPartials }).2.1
        (loadPrompts registry files
          { s with registeredPartials := newPartials }).1 := rfl
  rw [hstate]
  unfold toolRegistered runtimeEligible
  rw [removeOldPrompts_toolRefs, removeOldPrompts_runtimeMap]
  have hnewiff := loadPrompts_newIds_mem registry files
    { s with registeredPartials := newPartials } id
  have htooliff := loadPrompts_toolRefs_isSome registry files
    { s with registeredPartials := newPartials } id
  have hmap := loadPrompts_runtimeMap registry files
    { s with registeredPartials := newPartials }
  by_cases hin : id ∈ (loadPrompts registry files
      { s with registeredPartials := newPartials }).2.1
  · obtain ⟨f, hf, hid, hel, hcmp⟩ := hnewiff.mp hin
    have htool : (mapGet (loadPrompts registry files
        { s with registeredPartials := newPartials }).1.registeredToolRefs id).isSome =
        true := htooliff.mpr (Or.inl ⟨f, hf, hid, hel, hcmp⟩)
    rw [if_neg (fun hc => hc.2 hin), if_neg (fun hc => hc.2 hin), htool]
    have hmget : mapGet (loadPrompts registry files
        { s with registeredPartials := newPartials }).1.promptRuntimeMap id =
        some (fileRuntime registry f) := by
      rw [hmap]
      exact foldl_processFile_runtimeMap_mem registry files ⟨[], [], 0⟩ id f hdist hf hid
    rw [hmget]
    unfold fileEligible at hel
    exact hel.symm
  · by_cases hsome : (mapGet (loadPrompts registry files
        { s with registeredPartials := newPartials }).1.registeredToolRefs id).isSome = true
    · rw [if_pos ⟨hsome, hin⟩, if_pos ⟨hsome, hin⟩]
      rfl
    · rw [if_neg (fun hc => hsome hc.1), if_neg (fun hc => hsome hc.1)]
      have hfalse : (mapGet (loadPrompts registry files
          { s with registeredPartials := newPartials }).1.registeredToolRefs id).isSome =
          false := by
        cases hv : (mapGet (loadPrompts registry files
            { s with registeredPartials := newPartials }).1.registeredToolRefs id).isSome
        · rfl
        · exact absurd hv hsome
      rw [hfalse]
      by_cases hex : ∃ f ∈ files, f.pdef.id = id
      · obtain ⟨f, hf, hid⟩ := hex
        have hmget : mapGet (loadPrompts registry files
            { s with registeredPartials := newPartials }).1.promptRuntimeMap id =
            some (fileRuntime registry f) := by
          rw [hmap]
          exact foldl_processFile_runtimeMap_mem registry files ⟨[], [], 0⟩ id f hdist hf hid
        rw [hmget]
        have hnel : fileEligible registry f = false := by
          cases he : fileEligible registry f
          · rfl
          · exact absurd (hnewiff.mpr ⟨f, hf, hid, he, hcomp f hf he⟩) hin
        unfold fileEligible at hnel
        exact hnel.symm
      · have hnone : ∀ f ∈ files, f.pdef.id ≠ id := fun f hf hh => hex ⟨f, hf, hh⟩
        have hmget : mapGet (loadPrompts registry files
            { s with registeredPartials := newPartials }).1.promptRuntimeMap id = none := by
          rw [hmap]
          rw [foldl_processFile_runtimeMap_not_mem registry files ⟨[], [], 0⟩ id hnone]
          rfl
        rw [hmget]

/-- Counterexample for C1 as stated, refuting the unconditional iff in
both directions.  First scenario: a document classified `active` whose
template fails to compile stays in the runtime map as `active` but is
never tool-registered, so the runtime entry is eligible while the
tool-handle index has no entry.  Second scenario: two documents share
the id `dup` — an active, compiling one scanned first and a
warning-classified one scanned second; the tool is registered (from the
first) while the second `promptRuntimeMap.set` overwrites the entry
with `warning`, so after the reload the id is tool-registered while its
runtime entry is not eligible. -/
theorem reload_tool_index_counterexample :
    (runtimeEligible (reloadResultState true [] none
      [⟨⟨"gamma", "G", none, "T"⟩,
        some ⟨[1, 0, 0], PromptStatus.stable, [], [], []⟩, false, "root", false⟩]
      ⟨[], [], [], [], 0⟩) "gamma" = true ∧
    toolRegistered (reloadResultState true [] none
      [⟨⟨"gamma", "G", none, "T"⟩,
        some ⟨[1, 0, 0], PromptStatus.stable, [], [], []⟩, false, "root", false⟩]
      ⟨[], [], [], [], 0⟩) "gamma" = false) ∧
    (toolRegistered (reloadResultState true [] none
      [⟨⟨"dup", "A", none, "T"⟩,
        some ⟨[1, 0, 0], PromptStatus.stable, [], [], []⟩, false, "root", true⟩,
       ⟨⟨"dup", "W", none, "T"⟩, none, true, "root", true⟩]
      ⟨[], [], [], [], 0⟩) "dup" = true ∧
    (mapGet (reloadResultState true [] none
      [⟨⟨"dup", "A", none, "T"⟩,
        some ⟨[1, 0, 0], PromptStatus.stable, [], [], []⟩, false, "root", true⟩,
       ⟨⟨"dup", "W", none, "T"⟩, none, true, "root", true⟩]
      ⟨[], [], [], [], 0⟩).promptRuntimeMap "dup").map
        (fun rt => rt.runtime_state) = some PromptRuntimeState.warning ∧
    runtimeEligible (reloadResultState true [] none
      [⟨⟨"dup", "A", none, "T"⟩,
        some ⟨[1, 0, 0], PromptStatus.stable, [], [], []⟩, false, "root", true⟩,
       ⟨⟨"dup", "W", none, "T"⟩, none, true, "root", true⟩]
      ⟨[], [], [], [], 0⟩) "dup" = false) := by
  exact ⟨⟨rfl, rfl⟩, rfl, rfl, rfl⟩

/-- Witness for C1 (amended): a compiling metadata prompt is both
tool-registered and eligible after the reload. -/
theorem reload_tool_index_matches_runtime_witness :
    toolRegistered (reloadResultState true [] none
      [⟨⟨"code-review", "Code Review", none, "T"⟩,
        some ⟨[1, 0, 0], PromptStatus.stable, [], [], []⟩, false, "root", true⟩]
      ⟨[], [], [], [], 0⟩) "code-review" =
    runtimeEligible (reloadResultState true [] none
      [⟨⟨"code-review", "Code Review", none, "T"⟩,
        some ⟨[1, 0, 0], PromptStatus.stable, [], [], []⟩, false, "root", true⟩]
      ⟨[], [], [], [], 0⟩) "code-review" := by
  exact reload_tool_index_matches_runtime [] none
    [⟨⟨"code-review", "Code Review", none, "T"⟩,
      some ⟨[1, 0, 0], PromptStatus.stable, [], [], []⟩, false, "root", true⟩]
    ⟨[], [], [], [], 0⟩ (by decide) (by decide) "code-review"

/-- C4 (behaviour of the code at the claim's inputs): an id that was
tool-registered before the reload and is reclassified `warning` by the
new pass loses its freshly stored runtime entry — `removeOldPrompts`
deletes `promptRuntimeMap[id]` together with the stale tool — so after
the reload the runtime map no longer shows the parsed document,
contradicting the claim (and the code's own comment that non-registered
states are "still recorded in runtime map"). -/
theorem reload_runtime_entry_dropped_for_demoted_id :
    fileRuntimeState ⟨⟨"p", "P", none, "T"⟩, none, true, "root", true⟩ =
      PromptRuntimeState.warning ∧
    mapGet (reloadResultState true [] none
      [⟨⟨"p", "P", none, "T"⟩, none, true, "root", true⟩]
      ⟨[("p", 0)], ["p"],
        [("p", ⟨"p", "P", [1, 0, 0], PromptStatus.stable, [], [],
          PromptRuntimeState.active, PromptSource.embedded, "root", none⟩)],
        [], 1⟩).promptRuntimeMap "p" = none := by
  exact ⟨rfl, rfl⟩

/-! Single-file reload (`reloadSinglePrompt` in `src/services/loaders.ts`).
For C2 the observable is the server-visible tool registry, so the model
tracks the set of ids currently registered on the MCP server (`tools`)
alongside the module's handle map (`toolRefs`), and returns the sequence
of registry states the swap section passes through. -/

/-- Server-visible tool set plus the module's handle index. -/
structure ServerState where
  tools : List String
  toolRefs : List (String × Nat)
deriving DecidableEq

/-- The swap section of `reloadSinglePrompt` (lines 1812–1856): the old
handle, when present, is removed first (`oldToolRef.remove()`, line
1816), and only afterwards is the replacement registered (line 1823).
The returned list is the sequence of server-visible states, starting
with the initial one. -/
def singleReloadSwap (st : ServerState) (id : String) (newHandle : Nat) :
    List ServerState :=
  match mapGet st.toolRefs id with
  | some _ =>
    let s1 : ServerState := { st with tools := setDelete st.tools id }
    let s2 : ServerState :=
      { tools := setAdd s1.tools id, toolRefs := mapSet st.toolRefs id newHandle }
    [st, s1, s2]
  | none =>
    [st, { tools := setAdd st.tools id, toolRefs := mapSet st.toolRefs id newHandle }]

/-- The successful path of `reloadSinglePrompt` on an existing file
(lines 1680–1862): after classification, only `active`/`legacy` prompts
reach the swap; other states leave the registry untouched. -/
def reloadSinglePrompt (registry : Option Registry) (f : PromptFile) (newHandle : Nat)
    (st : ServerState) : List ServerState :=
  if (fileRuntime registry f).runtime_state = PromptRuntimeState.active ∨
      (fileRuntime registry f).runtime_state = PromptRuntimeState.legacy then
    singleReloadSwap st f.pdef.id newHandle
  else [st]

/-- Counterexample for C2: for an active document whose id already holds
a registered handle, the trace of `reloadSinglePrompt` contains an
intermediate state in which the id is absent from the tool registry —
the old handle is removed before the replacement is registered. -/
theorem single_reload_window_counterexample :
    (fileRuntime none ⟨⟨"x", "X", none, "T"⟩,
      some ⟨[1, 0, 0], PromptStatus.stable, [], [], []⟩,
      false, "root", true⟩).runtime_state = PromptRuntimeState.active ∧
    mapGet (ServerState.mk ["x"] [("x", 0)]).toolRefs "x" = some 0 ∧
    ¬ (∀ st ∈ reloadSinglePrompt none ⟨⟨"x", "X", none, "T"⟩,
        some ⟨[1, 0, 0], PromptStatus.stable, [], [], []⟩,
        false, "root", true⟩ 1 (ServerState.mk ["x"] [("x", 0)]),
      "x" ∈ st.tools) := by
  decide

/-- C2 (amended): on the successful single-file reload of an
`active`/`legacy` document whose id already has a registered handle, the
code removes the old handle first and then registers the replacement:
the trace has exactly one intermediate state, in which the id is
unregistered, and the final state has the id registered under the new
handle. -/
theorem single_reload_swap_amended (registry : Option Registry) (f : PromptFile)
    (newHandle oldHandle : Nat) (st : ServerState)
    (hel : (fileRuntime registry f).runtime_state = PromptRuntimeState.active ∨
      (fileRuntime registry f).runtime_state = PromptRuntimeState.legacy)
    (hold : mapGet st.toolRefs f.pdef.id = some oldHandle) :
    ∃ s1 s2, reloadSinglePrompt registry f newHandle st = [st, s1, s2] ∧
      f.pdef.id ∉ s1.tools ∧ f.pdef.id ∈ s2.tools ∧
      mapGet s2.toolRefs f.pdef.id = some newHandle := by
  unfold reloadSinglePrompt
  rw [if_pos hel]
  unfold singleReloadSwap
  rw [hold]
  refine ⟨_, _, rfl, ?_, ?_, ?_⟩
  · simp [setDelete]
  · exact (mem_setAdd _ _ _).mpr (Or.inr rfl)
  · rw [mapGet_mapSet, if_pos rfl]

/-- Witness for C2 (amended): the concrete scenario of the
counterexample instantiates the amended statement. -/
theorem single_reload_swap_amended_witness :
    ∃ s1 s2, reloadSinglePrompt none ⟨⟨"x", "X", none, "T"⟩,
        some ⟨[1, 0, 0], PromptStatus.stable, [], [], []⟩,
        false, "root", true⟩ 1 (ServerState.mk ["x"] [("x", 0)]) =
      [ServerState.mk ["x"] [("x", 0)], s1, s2] ∧
      "x" ∉ s1.tools ∧ "x" ∈ s2.tools ∧ mapGet s2.toolRefs "x" = some 1 := by
  exact single_reload_swap_amended none ⟨⟨"x", "X", none, "T"⟩,
    some ⟨[1, 0, 0], PromptStatus.stable, [], [], []⟩, false, "root", true⟩
    1 0 (ServerState.mk ["x"] [("x", 0)]) (by decide) (by decide)

/-! Reload re-entrancy (`reloadPrompts`, lines 1907–1978).  The
module-level `reloadingPromise` is the lock: requests arriving while it
is non-null receive the in-flight promise; the `finally` block clears
it.  Promises are numbered so that "which reload's result a caller gets"
is observable, and `started` counts reloads actually begun. -/

/-- State of the re-entrancy gate. -/
structure ReloadEngine where
  inflight : Option Nat
  started : Nat
  nextToken : Nat
deriving DecidableEq

/-- A reload request (lines 1912–1919): return the in-flight promise if
one exists, otherwise begin a new reload and store its promise. -/
def requestReload (e : ReloadEngine) : ReloadEngine × Nat :=
  match e.inflight with
  | some t => (e, t)
  | none =>
    ({ inflight := some e.nextToken
       started := e.started + 1
       nextToken := e.nextToken + 1 }, e.nextToken)

/-- Completion of the in-flight reload: the `finally` block (lines
1971–1975) clears the lock. -/
def completeReload (e : ReloadEngine) : ReloadEngine :=
  { e with inflight := none }

/-- C5: a `fullReload` requested while another reload is in flight does
not start a second reload — starting from an idle engine, the first
request begins exactly one reload and a second request arriving before
completion changes nothing and receives the same promise, so both
callers get the result of the single logical reload; the lock is an
`Option`, so at most one reload is in flight at any time, and completion
clears it. -/
theorem reload_requests_coalesce (e : ReloadEngine) (h : e.inflight = none) :
    (requestReload e).1.inflight = some (requestReload e).2 ∧
    (requestReload e).1.started = e.started + 1 ∧
    (requestReload (requestReload e).1).1 = (requestReload e).1 ∧
    (requestReload (requestReload e).1).2 = (requestReload e).2 ∧
    (completeReload (requestReload e).1).inflight = none := by
  unfold requestReload completeReload
  rw [h]
  exact ⟨rfl, rfl, rfl, rfl, rfl⟩

/-- Witness for C5 at the idle engine. -/
theorem reload_requests_coalesce_witness :
    (requestReload ⟨none, 0, 0⟩).1.inflight = some (requestReload ⟨none, 0, 0⟩).2 ∧
    (requestReload ⟨none, 0, 0⟩).1.started = (0 : Nat) + 1 ∧
    (requestReload (requestReload ⟨none, 0, 0⟩).1).1 = (requestReload ⟨none, 0, 0⟩).1 ∧
    (requestReload (requestReload ⟨none, 0, 0⟩).1).2 = (requestReload ⟨none, 0, 0⟩).2 ∧
    (completeReload (requestReload ⟨none, 0, 0⟩).1).inflight = none := by
  exact reload_requests_coalesce ⟨none, 0, 0⟩ rfl
